import Mathlib

/-!
Verification of the mahjong-agent rules engine and game state machine.

This file gives a shallow embedding, in Lean 4, of the core data model and the
operations of the `mahjong-agent` repository (`src/env/core/...`), and proves
properties of that embedding.  Python lists become Lean `List`s, `Counter`s
over tile values become sorted lists of values (head = minimal key), Python
dicts keyed by player index become association lists or lookup functions, and
fallible code (paths that raise uncaught exceptions in the source) returns
`Option`.  Machine integers do not overflow in any of the embedded code paths,
so `Nat`/`Int` are used directly.
-/

set_option maxRecDepth 100000

namespace Mahjong

/-- Tile from `actions.py`: value 0-33 plus the red-five flag.
0-8 man, 9-17 pin, 18-26 sou, 27-30 winds E/S/W/N, 31-33 dragons W/G/R. -/
structure Tile where
  value : Nat
  isRed : Bool
deriving DecidableEq, Repr

/-- ActionType enum from `actions.py`. -/
inductive ActionType where
  | DISCARD | RIICHI | CHI | PON | KAN | TSUMO | RON | PASS | SPECIAL_DRAW
deriving DecidableEq, Repr

/-- KanType enum from `actions.py`. -/
inductive KanType where
  | CLOSED | ADDED | OPEN
deriving DecidableEq, Repr

/-- Action dataclass from `actions.py` (frozen dataclass; equality compares all
fields, mirroring the generated `__eq__`). -/
structure Action where
  type : ActionType
  tile : Option Tile := none
  chiTiles : Option (Tile × Tile) := none
  kanType : Option KanType := none
  riichiDiscard : Option Tile := none
  winningTile : Option Tile := none
deriving DecidableEq, Repr

/-- The tag stored in the `type` field of a meld record.  The source stores
heterogeneous tags: `game_state.py` appends dicts tagged with `KanType` members
or the strings "pon"/"chi"/"kan_open", while `hand_analyzer.py` compares the
tag against `ActionType` members.  Distinct constructors compare unequal, just
as the distinct Python objects do. -/
inductive MeldTag where
  | atCHI | atPON | atKAN          -- ActionType.CHI / PON / KAN
  | ktCLOSED | ktADDED             -- KanType.CLOSED / KanType.ADDED
  | strPon | strChi | strKanOpen   -- "pon" / "chi" / "kan_open"
deriving DecidableEq, Repr

/-- A meld record: the source passes around dicts of the shape
`{"type": tag, "tiles": [...]}` (and a frozen `Meld` dataclass with the same
two fields where constructed); both are embedded as this structure. -/
structure Meld where
  type : MeldTag
  tiles : List Tile
deriving DecidableEq, Repr

/-- Terminal and honor tile values (`constants.py` TERMINAL_HONOR_VALUES). -/
def terminalHonorValues : List Nat := [0, 8, 9, 17, 18, 26, 27, 28, 29, 30, 31, 32, 33]

/-- Number of copies of value `v` among `tiles` (red and plain both count). -/
def countValue (tiles : List Tile) (v : Nat) : Nat :=
  (tiles.filter (fun t => t.value == v)).length

/-- One step of a stable insertion sort on tile values: the new tile goes
after every tile of smaller-or-equal value already placed. -/
def insertTileByValue (t : Tile) : List Tile → List Tile
  | [] => [t]
  | u :: rest =>
      if u.value ≤ t.value then u :: insertTileByValue t rest else t :: u :: rest

/-- Stable sort of tiles in ascending `value` order: the source sorts tiles
with `Tile.__lt__`, which compares only `value` (Python's sort is stable;
this insertion sort is the same stable ascending order). -/
def sortTiles (tiles : List Tile) : List Tile :=
  tiles.foldl (fun acc t => insertTileByValue t acc) []

namespace HandAnalyzer

/-- Component type tag of `hand_analyzer.HandComponent.type` (a string in the
source: "shuntsu" / "koutsu" / "kantsu" / "pair" / "kokushi_single"). -/
inductive CompType where
  | shuntsu | koutsu | kantsu | pair | kokushiSingle
deriving DecidableEq, Repr

/-- `hand_analyzer.HandComponent`: a decomposed group.  `__post_init__` keeps
the tiles sorted, which `mk` reproduces. -/
structure HandComponent where
  type : CompType
  tiles : List Tile
  isOpen : Bool
deriving DecidableEq, Repr

/-- Constructor mirroring `HandComponent.__post_init__` (sorts the tiles). -/
def HandComponent.make (type : CompType) (tiles : List Tile) (isOpen : Bool) :
    HandComponent :=
  ⟨type, sortTiles tiles, isOpen⟩

/-- Hand type tag of `hand_analyzer.WinForm.hand_type` (a string in the
source: "standard" / "chiitoitsu" / "kokushi"). -/
inductive HandType where
  | standard | chiitoitsu | kokushi
deriving DecidableEq, Repr

/-- `hand_analyzer.WinForm`: one complete winning decomposition. -/
structure WinForm where
  handType : HandType
  components : List HandComponent
  winningTile : Tile
deriving DecidableEq, Repr

/-- `WinForm.pair` property: the pair component of a standard decomposition. -/
def WinForm.pair (f : WinForm) : Option HandComponent :=
  if f.handType = HandType.standard then
    f.components.find? (fun c => c.type == CompType.pair)
  else none

/-- `WinForm.all_tiles` property: all tiles of the stored components. -/
def WinForm.allTiles (f : WinForm) : List Tile :=
  f.components.flatMap (fun c => c.tiles)

/-- `hand_analyzer._find_melds_recursive_by_value`, with the `Counter` of tile
values represented as the sorted list of its values with multiplicity (the
head of the list is `min(tile_counts.keys())`; removing from the front keeps
the list sorted).  Tries the minimal value as a triplet and as the start of a
run, with backtracking; recursion is on the number of melds still needed. -/
def findMeldsRecursiveByValue : Nat → List Nat → Bool
  | 0, vals => vals.isEmpty
  | _ + 1, [] => false           -- `min` of an empty Counter raises; caught, returns False
  | n + 1, v :: rest =>
      (decide (rest.take 2 = [v, v]) && findMeldsRecursiveByValue n (rest.drop 2))
      || (decide (v < 27) && decide (v % 9 ≤ 6)
          && rest.contains (v + 1) && rest.contains (v + 2)
          && findMeldsRecursiveByValue n ((rest.erase (v + 1)).erase (v + 2)))

/-- One step of a stable insertion sort on naturals. -/
def insertNatSorted (v : Nat) : List Nat → List Nat
  | [] => [v]
  | u :: rest => if u ≤ v then u :: insertNatSorted v rest else v :: u :: rest

/-- Sorted list of the values of a list of tiles (the representation used for
`Counter(t.value for t in tiles)` throughout this embedding). -/
def sortedValues (tiles : List Tile) : List Nat :=
  (tiles.map (fun t => t.value)).foldl (fun acc v => insertNatSorted v acc) []

/-- The loop in `_find_melds_recursive_by_tile` that removes (up to) the first
two tiles of the pair value from the hand. -/
def removePairTiles (v : Nat) : Nat → List Tile → List Tile
  | _, [] => []
  | 0, l => l
  | k + 1, t :: rest =>
      if t.value == v then removePairTiles v k rest
      else t :: removePairTiles v (k + 1) rest

/-- `hand_analyzer._find_melds_recursive_by_tile`: removes two tiles of the
pair value and falls back to the value-based recursion.  On success the source
returns `[[]]` (a single empty solution - the acknowledged technical debt that
standard forms carry no concealed meld components), else `[]`. -/
def findMeldsRecursiveByTile (handTiles : List Tile) (pairValue : Nat)
    (meldsToFind : Nat) : List (List HandComponent) :=
  let pairRemovedHand := removePairTiles pairValue 2 handTiles
  if findMeldsRecursiveByValue meldsToFind (sortedValues pairRemovedHand) then [[]] else []

/-- First-occurrence list of distinct values among `handTiles` with at least
two copies: `possible_pairs` in `_find_standard_forms` (a Python set of small
ints, which iterates in insertion order; only membership matters to the
results proved below). -/
def possiblePairs (handTiles : List Tile) : List Nat :=
  ((handTiles.map (fun t => t.value)).dedup).filter
    (fun v => 2 ≤ countValue handTiles v)

/-- `hand_analyzer._find_standard_forms`: for each candidate pair value, search
the remaining concealed tiles for `4 - len(open_components)` melds.  When the
player has more than four open meld components the Python recursion is called
with a negative meld count and always fails, which the guard reproduces. -/
def findStandardForms (handTiles : List Tile) (openComponents : List HandComponent)
    (winningTile : Tile) : List WinForm :=
  (possiblePairs handTiles).flatMap fun pairValue =>
    if openComponents.length > 4 then []
    else
      let meldsNeeded := 4 - openComponents.length
      let sols := findMeldsRecursiveByTile handTiles pairValue meldsNeeded
      if sols.isEmpty then []
      else
        let pairTiles := (handTiles.filter (fun t => t.value == pairValue)).take 2
        let pairComponent := HandComponent.make CompType.pair pairTiles false
        sols.map fun sol =>
          WinForm.mk HandType.standard (sol ++ openComponents ++ [pairComponent]) winningTile

/-- Distinct tiles of a hand (the keys of `Counter(hand_tiles)`; tiles are
counted with their red flag). -/
def distinctTiles (handTiles : List Tile) : List Tile := handTiles.dedup

/-- `hand_analyzer._find_chiitoitsu_forms`: seven pairs; exactly 7 distinct
tiles (red flag included), each appearing exactly twice. -/
def findChiitoitsuForms (handTiles : List Tile) (winningTile : Tile) : List WinForm :=
  if handTiles.length ≠ 14 then []
  else if (distinctTiles handTiles).length = 7
      ∧ ∀ t ∈ distinctTiles handTiles, handTiles.count t = 2 then
    [WinForm.mk HandType.chiitoitsu
      ((distinctTiles handTiles).map fun t => HandComponent.make CompType.pair [t, t] false)
      winningTile]
  else []

/-- The component-building loop of `_find_kokushi_forms` (keeps the first
doubled tile as the pair, each single as a kokushi single). -/
def kokushiComponents (handTiles : List Tile) (counts : Nat → Nat) :
    List Tile → Bool → List HandComponent
  | [], _ => []
  | t :: rest, pairTaken =>
      if counts t.value = 2 ∧ ¬pairTaken then
        HandComponent.make CompType.pair [t, t] false :: kokushiComponents handTiles counts rest true
      else if counts t.value = 1 then
        HandComponent.make CompType.kokushiSingle [t] false ::
          kokushiComponents handTiles counts rest pairTaken
      else kokushiComponents handTiles counts rest pairTaken

/-- `hand_analyzer._find_kokushi_forms`: thirteen orphans; all 13 terminal or
honor values present, one of them doubled, twelve single, and no other value
type present. -/
def findKokushiForms (handTiles : List Tile) (winningTile : Tile) : List WinForm :=
  if handTiles.length ≠ 14 then []
  else if ¬ (∀ v ∈ terminalHonorValues, ∃ t ∈ handTiles, t.value = v) then []
  else if ¬ (∀ t ∈ handTiles, t.value ∈ terminalHonorValues
        ∧ (countValue handTiles t.value = 1 ∨ countValue handTiles t.value = 2)) then []
  else
    let distinctVals := (handTiles.map (fun t => t.value)).dedup
    let pairCount := (distinctVals.filter (fun v => countValue handTiles v == 2)).length
    let singleCount := (distinctVals.filter (fun v => countValue handTiles v == 1)).length
    if pairCount = 1 ∧ singleCount = 12 then
      [WinForm.mk HandType.kokushi
        (kokushiComponents handTiles (countValue handTiles) handTiles false) winningTile]
    else []

/-- The open-meld bridge at the top of `find_all_winning_forms`: meld records
whose tag is an `ActionType` member become open components; any other tag is
skipped by the `else: continue` branch. -/
def openComponentsOfMelds (melds : List Meld) : List HandComponent :=
  melds.filterMap fun m =>
    match m.type with
    | MeldTag.atCHI => some (HandComponent.make CompType.shuntsu m.tiles true)
    | MeldTag.atPON => some (HandComponent.make CompType.koutsu m.tiles true)
    | MeldTag.atKAN => some (HandComponent.make CompType.kantsu m.tiles true)
    | _ => none

/-- `hand_analyzer.find_all_winning_forms`: all winning decompositions of a
14-tile hand; special shapes only when fully concealed. -/
def findAllWinningForms (handTiles : List Tile) (melds : List Meld)
    (winningTile : Tile) : List WinForm :=
  let isMenzen := melds.isEmpty
  let openComponents := openComponentsOfMelds melds
  (if isMenzen then
      findKokushiForms handTiles winningTile ++ findChiitoitsuForms handTiles winningTile
    else [])
    ++ findStandardForms handTiles openComponents winningTile

/-- `hand_analyzer.check_win_shape`: 14 tiles in total and at least one
decomposition.  The source takes `hand_tiles[-1]` as the winning tile; that
index is only reached with `hand_tiles` non-empty (a 14-tile total with an
empty concealed hand would raise), and the chosen tile does not affect whether
the returned list is empty. -/
def checkWinShape (handTiles : List Tile) (melds : List Meld) : Bool :=
  let allTilesInHand := handTiles ++ melds.flatMap (fun m => m.tiles)
  if allTilesInHand.length ≠ 14 then false
  else
    let winningTile := handTiles.getLastD ⟨0, false⟩
    !(findAllWinningForms handTiles melds winningTile).isEmpty

/-- `hand_analyzer.find_wait_tiles`: the set of tile values whose addition to a
13-tile hand completes a win, skipping values already at 4 copies.  The Python
function returns a set of ints; it is embedded as a `Finset`. -/
def findWaitTiles (handTiles : List Tile) (melds : List Meld) : Finset Nat :=
  if handTiles.length + (melds.map (fun m => m.tiles.length)).sum ≠ 13 then ∅
  else
    let allCurrentTiles := handTiles ++ melds.flatMap (fun m => m.tiles)
    (Finset.range 34).filter fun v =>
      countValue allCurrentTiles v < 4 ∧ checkWinShape (handTiles ++ [⟨v, false⟩]) melds

/-- `hand_analyzer.is_tenpai`: 13 tiles and a non-empty wait set (the source
iterates `find_wait_tiles` and returns on the first element). -/
def isTenpai (handTiles : List Tile) (melds : List Meld) : Bool :=
  if handTiles.length + (melds.map (fun m => m.tiles.length)).sum ≠ 13 then false
  else decide (findWaitTiles handTiles melds ≠ ∅)

end HandAnalyzer

namespace RulesEngine

/-- `rules.py RulesEngine._find_standard_melds`: same backtracking recursion as
the analyzer's value-based helper, with the extra short-circuit when fewer
tiles remain than three per meld still needed.  The `Counter` is again
represented as the sorted list of values with multiplicity. -/
def findStandardMelds : Nat → List Nat → Bool
  | 0, vals => vals.isEmpty
  | n + 1, vals =>
      if vals.length < (n + 1) * 3 then false
      else
        match vals with
        | [] => false
        | v :: rest =>
            (decide (rest.take 2 = [v, v]) && findStandardMelds n (rest.drop 2))
            || (decide (v < 27) && decide (v % 9 ≤ 6)
                && rest.contains (v + 1) && rest.contains (v + 2)
                && findStandardMelds n ((rest.erase (v + 1)).erase (v + 2)))

/-- `rules.py RulesEngine._is_seven_pairs_raw`: no melds, 14 tiles, exactly 7
distinct tiles (red flag distinguishes) each appearing exactly twice. -/
def isSevenPairsRaw (handTiles : List Tile) (melds : List Meld) : Bool :=
  if !melds.isEmpty then false
  else if handTiles.length ≠ 14 then false
  else decide ((handTiles.dedup).length = 7 ∧ ∀ t ∈ handTiles.dedup, handTiles.count t = 2)

/-- `rules.py RulesEngine._is_kokushi_raw`: no melds, 14 tiles, all 13 terminal
or honor values present, exactly one doubled and twelve single, no other value
present. -/
def isKokushiRaw (handTiles : List Tile) (melds : List Meld) : Bool :=
  if !melds.isEmpty then false
  else if handTiles.length ≠ 14 then false
  else if ¬ (∀ v ∈ terminalHonorValues, ∃ t ∈ handTiles, t.value = v) then false
  else if ¬ (∀ t ∈ handTiles, t.value ∈ terminalHonorValues
        ∧ (countValue handTiles t.value = 1 ∨ countValue handTiles t.value = 2)) then false
  else
    let distinctVals := (handTiles.map (fun t => t.value)).dedup
    let pairCount := (distinctVals.filter (fun v => countValue handTiles v == 2)).length
    let singleCount := (distinctVals.filter (fun v => countValue handTiles v == 1)).length
    decide (pairCount = 1 ∧ singleCount = 12)

/-- `rules.py RulesEngine._check_basic_win_shape`: 14 tiles in total
(concealed hand plus meld tiles); kokushi and seven pairs only when fully
concealed; otherwise value counts over all 14 tiles, trying every value with
at least two copies as the pair and always asking for four melds from the
remainder. -/
def checkBasicWinShape (handTiles : List Tile) (melds : List Meld) : Bool :=
  let allTilesInHand := handTiles ++ melds.flatMap (fun m => m.tiles)
  if allTilesInHand.length ≠ 14 then false
  else
    let isMenzen := melds.isEmpty
    if isMenzen && isKokushiRaw handTiles melds then true
    else if isMenzen && isSevenPairsRaw handTiles melds then true
    else
      let vals := HandAnalyzer.sortedValues allTilesInHand
      ((allTilesInHand.map (fun t => t.value)).dedup).any fun pairValue =>
        decide (2 ≤ countValue allTilesInHand pairValue)
          && findStandardMelds 4 ((vals.erase pairValue).erase pairValue)

/-- `rules.py RulesEngine.is_tenpai`: 13 tiles in total (concealed hand plus
meld tiles); some candidate value, not already at four copies, completes a
winning shape. -/
def isTenpai (handTiles : List Tile) (melds : List Meld) : Bool :=
  if handTiles.length + (melds.map (fun m => m.tiles.length)).sum ≠ 13 then false
  else
    let allCurrentTiles := handTiles ++ melds.flatMap (fun m => m.tiles)
    (List.range 34).any fun v =>
      decide (countValue allCurrentTiles v < 4)
        && checkBasicWinShape (handTiles ++ [⟨v, false⟩]) melds

/-- `rules.py RulesEngine.has_at_least_one_yaku`: an acknowledged placeholder
that always returns `True`. -/
def hasAtLeastOneYaku : Bool := true

/-- `rules.py RulesEngine._is_furiten`: an acknowledged placeholder that always
returns `False`. -/
def isFuriten : Bool := false

end RulesEngine

/-- GamePhase enum from `game_state.py`. -/
inductive GamePhase where
  | GAME_START | HAND_START | DEALING | PLAYER_DRAW | PLAYER_DISCARD
  | WAITING_FOR_RESPONSE | ACTION_PROCESSING | HAND_OVER_SCORES | GAME_OVER
deriving DecidableEq, Repr

/-- `game_state.PlayerState`: one player's mutable state. -/
structure PlayerState where
  playerIndex : Nat
  score : Int
  seatWind : Option Nat
  hand : List Tile
  drawnTile : Option Tile
  melds : List Meld
  discards : List Tile
  riichiDeclared : Bool
  riichiTurn : Int
  ippatsuChance : Bool
  isMenzen : Bool
deriving DecidableEq, Repr

/-- `game_state.Wall`: live wall, 14-tile dead wall, revealed indicator lists
and the count of replacement (rinshan) tiles already handed out.  Note that
`draw_replacement_tile` in the source never removes tiles from
`dead_wall_tiles`; it only advances the counter. -/
structure Wall where
  liveTiles : List Tile
  deadWallTiles : List Tile
  doraIndicators : List Tile
  uraDoraIndicators : List Tile
  replacementTilesDrawn : Nat
deriving DecidableEq, Repr

namespace Wall

/-- `Wall._generate_tiles` with the default configuration
(`use_red_fives = True`): for each of the three suits, ranks 1-9 with one red
copy replacing a plain copy of each 5; honors in four plain copies.  136 tiles
in total, in generation order. -/
def generateTiles : List Tile :=
  ((List.range 3).flatMap fun s =>
    (List.range 9).flatMap fun v =>
      let tileVal := s * 9 + v
      if v == 4 then Tile.mk tileVal true :: List.replicate 3 (Tile.mk tileVal false)
      else List.replicate 4 (Tile.mk tileVal false))
  ++ ((List.range 7).flatMap fun v => List.replicate 4 (Tile.mk (27 + v) false))

/-- `Wall.shuffle_and_setup` after the `random.shuffle`: the shuffled 136-tile
list is passed in explicitly (the shuffle itself is modelled as an arbitrary
input arrangement).  Splits off the 14-tile dead wall and reveals the initial
dora/ura-dora indicator pair at dead-wall indices 4 and 5. -/
def shuffleAndSetup (allTiles : List Tile) : Wall :=
  let numLive := allTiles.length - 14
  let live := allTiles.take numLive
  let dead := allTiles.drop numLive
  if 4 < dead.length ∧ 5 < dead.length then
    { liveTiles := live, deadWallTiles := dead,
      doraIndicators := (dead.drop 4).take 1,
      uraDoraIndicators := (dead.drop 5).take 1,
      replacementTilesDrawn := 0 }
  else
    { liveTiles := live, deadWallTiles := dead,
      doraIndicators := [], uraDoraIndicators := [],
      replacementTilesDrawn := 0 }

/-- `Wall.draw_tile`: pop the head of the live wall; `none` when exhausted. -/
def drawTile (w : Wall) : Option (Tile × Wall) :=
  match w.liveTiles with
  | [] => none
  | t :: rest => some (t, { w with liveTiles := rest })

/-- `Wall.draw_replacement_tile`: return the dead-wall tile at the replacement
index and advance the counter (at most 4 draws); the tile is *not* removed
from `dead_wall_tiles`. -/
def drawReplacementTile (w : Wall) : Option (Tile × Wall) :=
  if w.replacementTilesDrawn < 4 then
    match w.deadWallTiles.get? w.replacementTilesDrawn with
    | some t => some (t, { w with replacementTilesDrawn := w.replacementTilesDrawn + 1 })
    | none => none
  else none

/-- `Wall.reveal_new_dora`: append the next dora/ura pair of dead-wall slots
(indices 4+2k and 5+2k), up to five pairs; no-op past the ceiling or when the
slots fall outside the dead wall. -/
def revealNewDora (w : Wall) : Wall :=
  let numRevealed := w.doraIndicators.length
  if numRevealed < 1 + 4 then
    let newDoraIndex := 4 + numRevealed * 2
    match w.deadWallTiles.get? newDoraIndex, w.deadWallTiles.get? (newDoraIndex + 1) with
    | some d, some u =>
        { w with doraIndicators := w.doraIndicators ++ [d],
                 uraDoraIndicators := w.uraDoraIndicators ++ [u] }
    | _, _ => w
  else w

/-- `Wall._calculate_next_tile_value`: the dora value indicated by an
indicator value; `none` embeds the `ValueError` branch for values above 33. -/
def calculateNextTileValue (value : Nat) : Option Nat :=
  if value ≤ 26 then
    some ((value / 9) * 9 + (value % 9 + 1) % 9)
  else if 27 ≤ value ∧ value ≤ 30 then
    some (27 + (value - 27 + 1) % 4)
  else if 31 ≤ value ∧ value ≤ 33 then
    some (31 + (value - 31 + 1) % 3)
  else none

end Wall

/-- `game_state.GameState`: the full game state (four players fixed, matching
the default configuration).  `last_action_info` is kept as the two entries the
embedded code reads (action type and acting player); the three response-phase
bookkeeping fields mirror `_response_declarations` (a dict keyed by player
index, kept as an insertion-ordered association list),
`_responders_to_prompt` and `_responded_to_current_discard`. -/
structure GState where
  players : List PlayerState
  wall : Wall
  roundWind : Nat
  roundNumber : Nat
  honba : Nat
  riichiSticks : Nat
  dealerIndex : Nat
  currentPlayerIndex : Int
  gamePhase : GamePhase
  lastDiscardedTile : Option Tile
  lastDiscardPlayerIndex : Option Int
  lastActionType : Option ActionType
  lastActionPlayer : Option Nat
  responseDeclarations : List (Nat × Action)
  respondersToPrompt : List Nat
  respondedToCurrentDiscard : List Nat
  handOverFlag : Bool
  turnNumber : Nat
deriving Repr

/-- Dict insertion for the response-declaration map (later writes to the same
key overwrite, as in a Python dict). -/
def dictInsert (d : List (Nat × Action)) (k : Nat) (a : Action) : List (Nat × Action) :=
  if d.any (fun e => e.fst == k) then
    d.map (fun e => if e.fst == k then (k, a) else e)
  else d ++ [(k, a)]

/-- Dict lookup for the response-declaration map. -/
def dictLookup (d : List (Nat × Action)) (k : Nat) : Option Action :=
  (d.find? (fun e => e.fst == k)).map Prod.snd

/-- Replace player `i` in the player list (Python mutates the object held in
`self.players[i]`). -/
def GState.setPlayer (s : GState) (i : Nat) (p : PlayerState) : GState :=
  { s with players := s.players.set i p }

namespace RulesEngine

/-- `rules.py RulesEngine._can_tsumo`: a drawn tile, a winning shape on hand
plus drawn tile, and the (placeholder) yaku check. -/
def canTsumo (player : PlayerState) : Bool :=
  match player.drawnTile with
  | none => false
  | some d =>
      if ¬checkBasicWinShape (player.hand ++ [d]) player.melds then false
      else hasAtLeastOneYaku

/-- `rules.py RulesEngine._can_ron`: winning shape on the sorted hand plus the
target tile, then the furiten and yaku placeholders. -/
def canRon (player : PlayerState) (targetTile : Tile) : Bool :=
  if ¬checkBasicWinShape (sortTiles (player.hand ++ [targetTile])) player.melds then false
  else if isFuriten then false
  else hasAtLeastOneYaku

/-- `rules.py RulesEngine._can_pon`: not after riichi; at least two tiles of
the discarded value in hand. -/
def canPon (player : PlayerState) (targetTile : Tile) : Bool :=
  if player.riichiDeclared then false
  else 2 ≤ countValue player.hand targetTile.value

/-- `rules.py RulesEngine._can_open_kan`: not after riichi; at least three
tiles of the discarded value in hand. -/
def canOpenKan (player : PlayerState) (targetTile : Tile) : Bool :=
  if player.riichiDeclared then false
  else 3 ≤ countValue player.hand targetTile.value

/-- `rules.py RulesEngine._can_declare_riichi`: concealed, at least 1000
points, at least four live-wall tiles, not already declared. -/
def canDeclareRiichi (player : PlayerState) (s : GState) : Bool :=
  player.isMenzen && decide (1000 ≤ player.score)
    && decide (4 ≤ s.wall.liveTiles.length) && !player.riichiDeclared

/-- The pair `tuple(sorted((t1, t2)))` of the chi helpers: stable two-element
sort by tile value. -/
def sortedChiPair (t1 t2 : Tile) : Tile × Tile :=
  if t2.value < t1.value then (t2, t1) else (t1, t2)

/-- One pattern of `rules.py RulesEngine._find_chi_actions`: the first hand
tile of each of the two wanted values, if both exist. -/
def chiPattern (hand : List Tile) (discarded : Tile) (val1 val2 : Nat) : Option Action :=
  match hand.find? (fun t => t.value == val1), hand.find? (fun t => t.value == val2) with
  | some t1, some t2 =>
      some { type := ActionType.CHI, chiTiles := some (sortedChiPair t1 t2),
             tile := some discarded }
  | _, _ => none

/-- The final dedup loop of `_find_chi_actions` (unique `chi_tiles`). -/
def dedupChiActions : List Action → List (Option (Tile × Tile)) → List Action
  | [], _ => []
  | a :: rest, seen =>
      if a.chiTiles ∈ seen then dedupChiActions rest seen
      else a :: dedupChiActions rest (a.chiTiles :: seen)

/-- `rules.py RulesEngine._find_chi_actions`: no chi on honors or after
riichi; three run patterns around the discarded value (the `val1 == val2`
sub-branch of pattern 2 is unreachable since `t-1 ≠ t+1`), then dedup. -/
def findChiActions (player : PlayerState) (discardedTile : Tile) : List Action :=
  if 27 ≤ discardedTile.value then []
  else if player.riichiDeclared then []
  else
    let t := discardedTile.value
    let p1 := if 2 ≤ t % 9 then chiPattern player.hand discardedTile (t - 1) (t - 2) else none
    let p2 := if 1 ≤ t % 9 ∧ t % 9 ≤ 7 then
        chiPattern player.hand discardedTile (t - 1) (t + 1) else none
    let p3 := if t % 9 ≤ 6 then chiPattern player.hand discardedTile (t + 1) (t + 2) else none
    dedupChiActions ([p1, p2, p3].filterMap id) []

/-- `rules.py RulesEngine._can_declare_kyuushu_kyuuhai`: first turn, concealed,
a full 14-tile hand, at least nine distinct terminal/honor values. -/
def canDeclareKyuushuKyuuhai (player : PlayerState) (s : GState) : Bool :=
  if s.turnNumber ≠ 1 ∨ ¬player.isMenzen then false
  else
    let fullHand := player.hand ++ player.drawnTile.toList
    if fullHand.length ≠ 14 then false
    else
      let termVals := ((fullHand.filter
        (fun t => t.value ∈ terminalHonorValues)).map (fun t => t.value)).dedup
      decide (9 ≤ termVals.length)

/-- `rules.py RulesEngine._generate_discard_actions`: one discard action per
distinct `(value, is_red)` key over hand plus drawn tile, in first-occurrence
order. -/
def generateDiscardActionsLoop : List Tile → List (Nat × Bool) → List Action
  | [], _ => []
  | t :: rest, seen =>
      if (t.value, t.isRed) ∈ seen then generateDiscardActionsLoop rest seen
      else { type := ActionType.DISCARD, tile := some t }
        :: generateDiscardActionsLoop rest ((t.value, t.isRed) :: seen)

/-- Wrapper assembling the full hand for `_generate_discard_actions`. -/
def generateDiscardActions (player : PlayerState) : List Action :=
  generateDiscardActionsLoop (player.hand ++ player.drawnTile.toList) []

/-- The per-candidate loop of `rules.py RulesEngine._find_riichi_discards`:
skip repeated `(value, is_red)` keys, keep a candidate if removing its first
occurrence from the 14 tiles leaves a tenpai hand. -/
def findRiichiDiscardsLoop (possible : List Tile) (melds : List Meld) :
    List Tile → List (Nat × Bool) → List Tile
  | [], _ => []
  | t :: rest, seen =>
      if (t.value, t.isRed) ∈ seen then findRiichiDiscardsLoop possible melds rest seen
      else
        let seen' := (t.value, t.isRed) :: seen
        if isTenpai (possible.erase t) melds then
          t :: findRiichiDiscardsLoop possible melds rest seen'
        else findRiichiDiscardsLoop possible melds rest seen'

/-- `rules.py RulesEngine._find_riichi_discards`. -/
def findRiichiDiscards (player : PlayerState) (s : GState) : List Tile :=
  if ¬canDeclareRiichi player s then []
  else
    let possible := player.hand ++ player.drawnTile.toList
    findRiichiDiscardsLoop possible player.melds possible []

/-- `rules.py RulesEngine._find_self_kans`: closed kans are reported for every
tile object with four copies in hand plus drawn tile, but the source builds
them as `Action(type=KAN, kan_type=CLOSED)` *without* a `tile` argument, so
`Action.__post_init__` raises `ValueError`; the embedding returns `none` for
that crash.  Added kans extend a pon-tagged meld (`meld["type"] ==
ActionType.PON`) with the first matching tile. -/
def findSelfKans (player : PlayerState) : Option (List Action) :=
  let fullHand := player.hand ++ player.drawnTile.toList
  if fullHand.dedup.any (fun t => fullHand.count t == 4) then none
  else
    some <| player.melds.filterMap fun m =>
      if m.type == MeldTag.atPON then
        match m.tiles.head? with
        | none => none
        | some ponTile =>
            match fullHand.find? (fun t => t.value == ponTile.value) with
            | some matching =>
                some { type := ActionType.KAN, kanType := some KanType.ADDED,
                       tile := some matching }
            | none => none
      else none

/-- `rules.py RulesEngine.generate_candidate_actions`: the legal-action list
for a player in the current phase; `none` embeds the uncaught exceptions of
the PLAYER_DISCARD branch (closed-kan action construction). -/
def generateCandidateActions (s : GState) (playerIndex : Nat) : Option (List Action) :=
  match s.players.get? playerIndex with
  | none => none
  | some player =>
    match s.gamePhase with
    | GamePhase.PLAYER_DISCARD =>
        if (playerIndex : Int) ≠ s.currentPlayerIndex then some []
        else
          let tsumoActs : List Action :=
            match player.drawnTile with
            | some d => if canTsumo player then
                [{ type := ActionType.TSUMO, winningTile := some d }] else []
            | none => []
          match findSelfKans player with
          | none => none
          | some kanActs =>
            let base := tsumoActs ++ kanActs
            let canTsumoFlag := base.any (fun c => c.type == ActionType.TSUMO)
            let canKanFlag := base.any (fun c => c.type == ActionType.KAN)
            let base :=
              if ¬canTsumoFlag ∧ ¬canKanFlag then
                base
                  ++ ((findRiichiDiscards player s).map fun t =>
                        { type := ActionType.RIICHI, riichiDiscard := some t })
                  ++ generateDiscardActions player
              else base
            let base :=
              if s.turnNumber = 1 ∧ player.isMenzen ∧ canDeclareKyuushuKyuuhai player s then
                base ++ [{ type := ActionType.SPECIAL_DRAW }]
              else base
            some base
    | GamePhase.WAITING_FOR_RESPONSE =>
        if s.lastDiscardPlayerIndex = some (playerIndex : Int) then some []
        else
          match s.lastDiscardedTile with
          | none => some [{ type := ActionType.PASS }]
          | some lastDiscard =>
            let ronActs : List Action :=
              if canRon player lastDiscard then
                [{ type := ActionType.RON, winningTile := some lastDiscard }] else []
            let callActs : List Action :=
              if ¬player.riichiDeclared then
                (if canPon player lastDiscard then
                    [{ type := ActionType.PON, tile := some (Tile.mk lastDiscard.value false) }]
                  else [])
                ++ (if canOpenKan player lastDiscard then
                    [{ type := ActionType.KAN, tile := some (Tile.mk lastDiscard.value false),
                       kanType := some KanType.OPEN }]
                  else [])
                ++ (if ((s.lastDiscardPlayerIndex.getD (-1) + 1).emod 4).toNat = playerIndex then
                    findChiActions player lastDiscard
                  else [])
              else []
            some (ronActs ++ callActs ++ [{ type := ActionType.PASS }])
    | _ => some []

end RulesEngine

/-- Priority resolution over collected response declarations, as implemented
both by `action_validator.ActionValidator.resolve_response_priorities` and by
`game_state.GameState._resolve_response_priorities` (the two bodies are the
same algorithm): Ron first, then Pon/Kan, each scanned over the seats
`discarder - 1, -2, -3 (mod 4)`, then Chi from the seat after the discarder
only; `none` when every declaration is a Pass (or out of reach).  The
declaration dict is passed as its lookup function.

The scan loop shared by the Ron and Pon/Kan stages of priority
resolution: walk the seats in order and return the first declaration
satisfying the class predicate (the source first filters the declaration dict
by action type, then probes the seats for membership - the same thing). -/
def scanDeclarations (lookup : Nat → Option Action) (pred : Action → Bool) :
    List Nat → Option (Action × Nat)
  | [] => none
  | seat :: rest =>
      match lookup seat with
      | some a =>
          if pred a then some (a, seat) else scanDeclarations lookup pred rest
      | none => scanDeclarations lookup pred rest

/-- The seat order probed by the resolution loops: `discarder - 1, -2, ...`
modulo the player count (Python `%` on a possibly negative int is `emod`). -/
def responseScanSeats (discarderIndex : Int) (numPlayers : Nat) : List Nat :=
  (List.range' 1 (numPlayers - 1)).map fun i =>
    ((discarderIndex - (i : Int)).emod numPlayers).toNat

def resolveResponsePriorities (lookup : Nat → Option Action) (discarderIndex : Int)
    (numPlayers : Nat) : Option (Action × Nat) :=
  let seats := responseScanSeats discarderIndex numPlayers
  match scanDeclarations lookup (fun a => a.type == ActionType.RON) seats with
  | some r => some r
  | none =>
    match scanDeclarations lookup
        (fun a => a.type == ActionType.PON || a.type == ActionType.KAN) seats with
    | some r => some r
    | none =>
      let nextPlayerIndex := ((discarderIndex + 1).emod numPlayers).toNat
      match lookup nextPlayerIndex with
      | some a => if a.type == ActionType.CHI then some (a, nextPlayerIndex) else none
      | none => none

namespace GameState

/-- The skip-scan of `GameState._remove_tiles_from_hand`: walk the hand,
dropping each tile while its entry in the still-to-remove counter is
positive. -/
def removeScan : List Tile → List Tile → List Tile
  | [], _ => []
  | t :: rest, need =>
      if 0 < need.count t then removeScan rest (need.erase t)
      else t :: removeScan rest need

/-- `GameState._remove_tiles_from_hand`: all-or-nothing exact-tile removal
(red flag included).  Empty request succeeds without change; if any requested
tile is short in the hand, fail and leave the hand untouched; otherwise drop
exactly the requested multiset.  Returns the success flag and the (new or
unchanged) hand. -/
def removeTilesFromHand (hand : List Tile) (tilesToRemove : List Tile) :
    Bool × List Tile :=
  if tilesToRemove.isEmpty then (true, hand)
  else if tilesToRemove.any (fun t => hand.count t < tilesToRemove.count t) then
    (false, hand)
  else (true, removeScan hand tilesToRemove)

/-- `GameState._perform_discard_logic`: remove the discarded tile from the
drawn slot (tsumogiri) or from the hand (tedashi, after merging the drawn tile
into the hand); `none` when the tile is in neither place (the source returns
`False` without mutating). -/
def performDiscardLogic (player : PlayerState) (tileToDiscard : Tile) :
    Option PlayerState :=
  let isDiscardingDrawnTile := player.drawnTile = some tileToDiscard
  let isDiscardingFromHand := player.hand.contains tileToDiscard
  if ¬(isDiscardingDrawnTile ∨ isDiscardingFromHand) then none
  else if isDiscardingDrawnTile then some { player with drawnTile := none }
  else
    let player :=
      match player.drawnTile with
      | some d => { player with hand := player.hand ++ [d], drawnTile := none }
      | none => player
    match removeTilesFromHand player.hand [tileToDiscard] with
    | (true, h) => some { player with hand := h }
    | (false, _) => none

/-- Modelled from the spec: `RulesEngine.validate_riichi` is called by
`GameState.apply_action` but defined nowhere in the repository (only this call
site exists).  Spec §4.4: riichi needs a concealed hand, at least 1000 points,
at least four live tiles, no prior declaration, and the declared discard must
be one of the enumerated choices, i.e. a tile actually held whose removal
leaves the remaining 13 tiles tenpai.  A `RIICHI` action built by the
generators carries the discard in `riichi_discard` and leaves `tile` as
`None`, which this validator rejects. -/
def validateRiichi (s : GState) (playerIndex : Nat) (tile : Option Tile) : Bool :=
  match s.players.get? playerIndex, tile with
  | some player, some t =>
      RulesEngine.canDeclareRiichi player s
        && (player.hand ++ player.drawnTile.toList).contains t
        && RulesEngine.isTenpai ((player.hand ++ player.drawnTile.toList).erase t)
            player.melds
  | _, _ => false

/-- Modelled from the spec: `RulesEngine.validate_special_draw` is called by
`GameState.apply_action` but defined nowhere in the repository.  Spec §4.4
admits only the nine-terminals abortive declaration on a first untouched
draw, which the existing `_can_declare_kyuushu_kyuuhai` implements. -/
def validateSpecialDraw (s : GState) (playerIndex : Nat) : Bool :=
  match s.players.get? playerIndex with
  | some player => RulesEngine.canDeclareKyuushuKyuuhai player s
  | none => false

/-- `GameState._handle_exhaustive_draw`: settlement phase, no acting player. -/
def handleExhaustiveDraw (s : GState) : GState :=
  { s with gamePhase := GamePhase.HAND_OVER_SCORES, currentPlayerIndex := -1 }

/-- `GameState._transition_to_next_draw_phase`: clear the response bookkeeping
(the source deliberately keeps `last_discarded_tile`), then the seat after the
original discarder (read from `last_action_info`) draws; an empty wall ends
the hand as an exhaustive draw.  `none` embeds an out-of-range player list
access. -/
def transitionToNextDrawPhase (s : GState) : Option GState :=
  let s := { s with responseDeclarations := [], respondersToPrompt := [],
                    respondedToCurrentDiscard := [] }
  let nextDrawerIndex : Nat :=
    match s.lastActionPlayer with
    | none => ((s.currentPlayerIndex + 1).emod 4).toNat
    | some p => (p + 1) % 4
  if 0 < s.wall.liveTiles.length then
    match s.wall.drawTile with
    | some (t, w') =>
        match s.players.get? nextDrawerIndex with
        | some pl =>
            some (({ s with wall := w', gamePhase := GamePhase.PLAYER_DISCARD,
                            currentPlayerIndex := (nextDrawerIndex : Int) }).setPlayer
                    nextDrawerIndex { pl with drawnTile := some t })
        | none => none
    | none => some (handleExhaustiveDraw s)
  else some (handleExhaustiveDraw s)

/-- `GameState._build_response_prompt_queue`: the seats after the discarder,
in counter-clockwise order, that have at least one non-pass response option
according to `generate_candidate_actions`. -/
def buildResponsePromptQueue (s : GState) : Option (List Nat) :=
  match s.lastDiscardPlayerIndex with
  | none => some []
  | some discarder =>
      let startPlayer := ((discarder + 1).emod 4).toNat
      (List.range 3).foldlM
        (fun acc i => do
          let pIdx := (startPlayer + i) % 4
          let acts ← RulesEngine.generateCandidateActions s pIdx
          let hasResponse := acts.any fun a =>
            a.type == ActionType.CHI || a.type == ActionType.PON
              || a.type == ActionType.KAN || a.type == ActionType.RON
          pure (if hasResponse then acc ++ [pIdx] else acc))
        []

/-- `GameState._apply_winning_response`: apply the winning non-pass response.
Ron only changes phase; Pon/Chi/open Kan move tiles into a new meld (the
claimed discard is *not* removed from the discarder's pile, and the removal
result from the claimant's hand is ignored); open Kan also takes a replacement
tile and reveals a dora.  The response bookkeeping is cleared afterwards
except on the internal-error early returns. -/
def applyWinningResponse (s : GState) (winningAction : Action)
    (winningPlayerIndex : Nat) : Option GState :=
  match s.players.get? winningPlayerIndex with
  | none => none
  | some player =>
    match s.lastDiscardedTile with
    | none => some s      -- internal-error print, early return, no mutation
    | some discardedTile =>
      let cleanup : GState → GState := fun s' =>
        { s' with lastDiscardedTile := none, lastDiscardPlayerIndex := none,
                  responseDeclarations := [], respondersToPrompt := [],
                  respondedToCurrentDiscard := [] }
      match winningAction.type with
      | ActionType.RON =>
          some (cleanup { s with gamePhase := GamePhase.HAND_OVER_SCORES,
                                 currentPlayerIndex := (winningPlayerIndex : Int) })
      | ActionType.PON =>
          match winningAction.tile with
          | none => none    -- sorting a list containing None raises
          | some t =>
            let player := { player with
              melds := player.melds
                ++ [Meld.mk MeldTag.strPon (sortTiles [discardedTile, t, t])] }
            let player := { player with
              hand := (removeTilesFromHand player.hand [t, t]).2 }
            some (cleanup ({ (s.setPlayer winningPlayerIndex player) with
              gamePhase := GamePhase.PLAYER_DISCARD,
              currentPlayerIndex := (winningPlayerIndex : Int) }))
      | ActionType.KAN =>
          match winningAction.kanType with
          | some KanType.OPEN =>
              match winningAction.tile with
              | none => none
              | some t =>
                match s.lastDiscardPlayerIndex with
                | none => some s   -- internal-error print, early return
                | some _ =>
                  let player := { player with
                    melds := player.melds
                      ++ [Meld.mk MeldTag.strKanOpen (sortTiles [discardedTile, t, t, t])] }
                  let player := { player with
                    hand := (removeTilesFromHand player.hand [t, t, t]).2 }
                  let (rinshan, wall') :=
                    match s.wall.drawReplacementTile with
                    | some (r, w') => (some r, w')
                    | none => (none, s.wall)
                  let player := { player with drawnTile := rinshan }
                  let s := { (s.setPlayer winningPlayerIndex player) with
                    wall := Wall.revealNewDora wall',
                    gamePhase := GamePhase.PLAYER_DISCARD,
                    currentPlayerIndex := (winningPlayerIndex : Int) }
                  some (cleanup s)
          | some KanType.CLOSED | some KanType.ADDED =>
              some s             -- internal-error print, early return
          | none => some (cleanup s)  -- matches neither branch; cleanup only
      | ActionType.CHI =>
          match winningAction.chiTiles with
          | none => none    -- `list(None)` raises
          | some (c1, c2) =>
            let player := { player with
              melds := player.melds
                ++ [Meld.mk MeldTag.strChi (sortTiles [discardedTile, c1, c2])] }
            let player := { player with
              hand := (removeTilesFromHand player.hand [c1, c2]).2 }
            some (cleanup ({ (s.setPlayer winningPlayerIndex player) with
              gamePhase := GamePhase.PLAYER_DISCARD,
              currentPlayerIndex := (winningPlayerIndex : Int) }))
      | _ => some (cleanup s)

/-- Insert into the `_responded_to_current_discard` set. -/
def insertResponded (l : List Nat) (p : Nat) : List Nat :=
  if p ∈ l then l else l ++ [p]

/-- The discard aftermath shared by the DISCARD and RIICHI branches of
`apply_action`: append to the river, record the last discard, clear ippatsu
for a riichi player (DISCARD branch only), enter WAITING_FOR_RESPONSE, build
the responder queue, and either prompt the first responder or skip to the
next draw. -/
def discardAftermath (s : GState) (playerIndex : Nat) (player : PlayerState)
    (tile : Tile) (clearIppatsu : Bool) : Option (GState × Bool) := do
  let player := { player with discards := player.discards ++ [tile] }
  let player :=
    if clearIppatsu ∧ player.riichiDeclared then { player with ippatsuChance := false }
    else player
  let s := { (s.setPlayer playerIndex player) with
    lastDiscardedTile := some tile,
    lastDiscardPlayerIndex := some (playerIndex : Int),
    gamePhase := GamePhase.WAITING_FOR_RESPONSE,
    responseDeclarations := [], respondedToCurrentDiscard := [] }
  let queue ← buildResponsePromptQueue s
  let s := { s with respondersToPrompt := queue }
  match queue with
  | q0 :: _ => pure ({ s with currentPlayerIndex := (q0 : Int) }, true)
  | [] => do pure (← transitionToNextDrawPhase s, true)

/-- `GameState.apply_action`: the single state-mutating entry point.  The
result is `some (s', accepted)` where `accepted` is false on every
early-return rejection path, and `none` embeds the uncaught exceptions of the
source (always-crashing paths: the tsumo success path reads `.get` off a
bool, the self-kan validators are called with mismatched arguments, a
successful special-draw calls the undefined `_transition_to_abortive_draw`).
`last_action_info` is recorded up front in all cases, as in the source. -/
def applyAction (s : GState) (action : Action) (playerIndex : Nat) :
    Option (GState × Bool) :=
  let s := { s with lastActionType := some action.type,
                    lastActionPlayer := some playerIndex }
  if (playerIndex : Int) ≠ s.currentPlayerIndex then some (s, false)
  else
    match s.gamePhase with
    | GamePhase.PLAYER_DISCARD =>
        (match action.type with
        | ActionType.DISCARD =>
            match s.players.get? playerIndex with
            | none => none
            | some player =>
              match action.tile with
              | none => some (s, false)  -- `None` is neither drawn nor in hand
              | some tile =>
                match performDiscardLogic player tile with
                | none => some (s, false)
                | some player' => discardAftermath s playerIndex player' tile true
        | ActionType.TSUMO =>
            match s.players.get? playerIndex with
            | none => none
            | some player =>
              let combinedHand := player.hand ++ player.drawnTile.toList
              if ¬RulesEngine.checkBasicWinShape combinedHand player.melds then
                some (s, false)
              else none     -- `win_info.get(...)` on a bool raises AttributeError
        | ActionType.KAN =>
            (match action.kanType with
            | none => some (s, false)
            | some KanType.OPEN => some (s, false)
            | some KanType.CLOSED => none  -- validate_closed_kan call raises TypeError
            | some KanType.ADDED => none)  -- validate_added_kan call raises TypeError
        | ActionType.RIICHI =>
            match s.players.get? playerIndex with
            | none => none
            | some player =>
              if ¬validateRiichi s playerIndex action.tile then some (s, false)
              else
                -- riichi bookkeeping happens before the discard is performed
                let player := { player with riichiDeclared := true,
                                            score := player.score - 1000,
                                            ippatsuChance := true }
                let s := { (s.setPlayer playerIndex player) with
                  riichiSticks := s.riichiSticks + 1 }
                match action.tile with
                | none => some (s, false)
                | some tile =>
                  match performDiscardLogic player tile with
                  | none => some (s, false)  -- discard failed after the mutations above
                  | some player' => discardAftermath s playerIndex player' tile false
        | ActionType.SPECIAL_DRAW =>
            if validateSpecialDraw s playerIndex then
              none   -- `_transition_to_abortive_draw` is undefined; AttributeError
            else some (s, false)
        | _ => some (s, false))
    | GamePhase.WAITING_FOR_RESPONSE =>
        (match RulesEngine.generateCandidateActions s playerIndex with
        | none => none
        | some allValidActions =>
          if ¬allValidActions.contains action then some (s, false)
          else
            let s := { s with
              responseDeclarations := dictInsert s.responseDeclarations playerIndex action,
              respondedToCurrentDiscard :=
                insertResponded s.respondedToCurrentDiscard playerIndex }
            let s :=
              match s.respondersToPrompt with
              | q0 :: rest =>
                  if q0 = playerIndex then { s with respondersToPrompt := rest } else s
              | [] => s
            if s.respondersToPrompt.isEmpty then
              let res :=
                match s.lastDiscardPlayerIndex with
                | none => none     -- the resolver's `discarder is None` early return
                | some d =>
                    resolveResponsePriorities (dictLookup s.responseDeclarations) d 4
              match res with
              | some (winningAction, winningPlayerIndex) =>
                  (applyWinningResponse s winningAction winningPlayerIndex).map (·, true)
              | none => (transitionToNextDrawPhase s).map (·, true)
            else
              match s.respondersToPrompt.head? with
              | some q0 => some ({ s with currentPlayerIndex := (q0 : Int) }, true)
              | none => some (s, true))
    | _ => some (s, false)

/-- `PlayerState.reset_hand`: clear the per-hand fields. -/
def resetHandPlayer (p : PlayerState) : PlayerState :=
  { p with hand := [], drawnTile := none, melds := [], discards := [],
           riichiDeclared := false, riichiTurn := -1, ippatsuChance := false,
           isMenzen := true }

/-- Draw `k` tiles from the head of the live wall (the dealing loop of
`reset_new_hand`); `none` when the wall empties (`ValueError` in the
source). -/
def drawK : Nat → Wall → Option (List Tile × Wall)
  | 0, w => some ([], w)
  | k + 1, w =>
      match w.drawTile with
      | none => none
      | some (t, w') => (drawK k w').map (fun r => (t :: r.1, r.2))

/-- Deal 13 sorted tiles to each listed seat in order. -/
def dealHandsLoop : List Nat → GState → Option GState
  | [], s => some s
  | i :: rest, s =>
      match drawK 13 s.wall with
      | none => none
      | some (tiles, w') =>
          match s.players.get? i with
          | none => none
          | some p =>
              dealHandsLoop rest
                (({ s with wall := w' }).setPlayer i { p with hand := sortTiles tiles })

/-- Steps 3-4 of `reset_new_hand`: 13 tiles to each seat, one extra drawn tile
to the dealer. -/
def dealAll (s : GState) : Option GState := do
  let s ← dealHandsLoop [0, 1, 2, 3] s
  match s.wall.drawTile with
  | none => none
  | some (t, w') =>
      match s.players.get? s.dealerIndex with
      | none => none
      | some dp =>
          some (({ s with wall := w' }).setPlayer s.dealerIndex
            { dp with drawnTile := some t })

/-- `GameState.reset_new_hand` with the shuffled 136-tile arrangement passed
explicitly: reset the players and their seat winds, set up the wall, deal,
and hand the turn to the dealer.  A wall underflow during dealing (impossible
for a 136-tile arrangement) is embedded as the pre-deal state flagged
hand-over, matching the caught `ValueError` branch up to the partially dealt
hands it abandons. -/
def resetNewHand (s : GState) (allTiles : List Tile) : GState :=
  let players' := s.players.enum.map fun ip =>
    let q := resetHandPlayer ip.2
    { q with seatWind := some ((((ip.1 : Int) - s.dealerIndex + 4).emod 4).toNat) }
  let s := { s with players := players', wall := Wall.shuffleAndSetup allTiles,
                    gamePhase := GamePhase.DEALING }
  match dealAll s with
  | none => { s with handOverFlag := true, gamePhase := GamePhase.HAND_OVER_SCORES }
  | some s' =>
      { s' with lastDiscardedTile := none, lastDiscardPlayerIndex := some (-1),
                lastActionType := some ActionType.PASS, lastActionPlayer := none,
                handOverFlag := false, turnNumber := 1,
                currentPlayerIndex := (s'.dealerIndex : Int),
                gamePhase := GamePhase.PLAYER_DISCARD }

end GameState

/-- Tiles held by one player: concealed hand, meld tiles and the drawn-tile
slot (the quantity summed in the spec's conservation invariant). -/
def playerHeldTiles (p : PlayerState) : Nat :=
  p.hand.length + (p.melds.map (fun m => m.tiles.length)).sum
    + p.drawnTile.toList.length

/-- The spec's conservation quantity: live wall plus dead wall plus all tiles
held by the players plus all discard piles. -/
def totalTileCount (s : GState) : Nat :=
  s.wall.liveTiles.length + s.wall.deadWallTiles.length
    + (s.players.map playerHeldTiles).sum
    + (s.players.map (fun p => p.discards.length)).sum

namespace RulesEngine

/-- The no-ten penalty computation of the EXHAUSTIVE_DRAW branch of
`rules.py RulesEngine.get_hand_outcome`, as a function of the four players'
tenpai statuses: with `0 < t < 4` tenpai players, each noten player pays
`3000 // (4 - t)` and each tenpai player receives `3000 // t`; otherwise no
transfer. -/
def exhaustiveDrawScoreChanges (tenpaiStatus : Fin 4 → Bool) : Fin 4 → Int :=
  let tenpaiIndices := (List.finRange 4).filter tenpaiStatus
  let notenIndices := (List.finRange 4).filter (fun i => !tenpaiStatus i)
  let numTenpai := tenpaiIndices.length
  let numNoten := notenIndices.length
  if 0 < numTenpai ∧ numTenpai < 4 then
    let pointsPerNoten : Int := (3000 : Int) / numNoten
    let pointsPerTenpai : Int := (3000 : Int) / numTenpai
    fun i => if tenpaiStatus i then pointsPerTenpai else -pointsPerNoten
  else fun _ => 0

/-- The EXHAUSTIVE_DRAW branch applied to a game state: tenpai statuses come
from `is_tenpai` on each player's hand and melds, exactly as the source loop
computes them. -/
def exhaustiveDrawOutcome (s : GState) : Fin 4 → Int :=
  exhaustiveDrawScoreChanges fun i =>
    match s.players.get? (i : Nat) with
    | some p => isTenpai p.hand p.melds
    | none => false

end RulesEngine

namespace Scoring

open HandAnalyzer

/-- The win context consumed by `Scoring._find_yaku`, `_calculate_fu` and
`_calculate_dora`.  Modelled from the spec: `Scoring._get_win_context` is
called by `calculate_win_details` but not defined in `scoring.py`; spec §4.3
lists the context-only inputs (riichi, tsumo, menzen, seat and round winds,
dealer status). -/
structure WinContext where
  isRiichi : Bool
  isTsumo : Bool
  isMenzen : Bool
  playerWind : Option Nat
  roundWind : Option Nat
  isDealer : Bool
deriving DecidableEq, Repr

/-- Modelled from the spec: build the win context from the player and game
state (winds as tile values 27-30; dealer status by seat comparison). -/
def getWinContext (player : PlayerState) (s : GState) (isTsumo : Bool) : WinContext :=
  { isRiichi := player.riichiDeclared, isTsumo := isTsumo,
    isMenzen := player.isMenzen,
    playerWind := player.seatWind.map (fun w => 27 + w),
    roundWind := some (27 + s.roundWind),
    isDealer := player.playerIndex = s.dealerIndex }

/-- `scoring.WinDetails`: the result record of `calculate_win_details`.
`han`/`fu` are `Int` because the best-form fold starts them at `-1`. -/
structure WinDetails where
  isValidWin : Bool := false
  winningTile : Option Tile := none
  isTsumo : Bool := false
  winForm : Option WinForm := none
  yakuList : List (String × Nat) := []
  han : Int := 0
  fu : Int := 0
  doraCount : Nat := 0
  totalHan : Int := 0
  scorePoints : Int := 0
  isYakuman : Bool := false
  yakumanList : List String := []
deriving Repr

/-- `Scoring._find_yakuman`: an acknowledged stub that returns no yakuman. -/
def findYakuman : List String := []

/-- The meld-shaped components of a form.  Modelled from the spec:
`_check_yaku_yakuhai` and `_calculate_fu` iterate `form.melds`, an attribute
the `WinForm` dataclass does not define; spec §4.3 applies the per-meld rules
to the groups of the decomposition other than the pair, i.e. the
shuntsu/koutsu/kantsu components. -/
def formMelds (f : WinForm) : List HandComponent :=
  f.components.filter fun c =>
    c.type == CompType.shuntsu || c.type == CompType.koutsu || c.type == CompType.kantsu

/-- `Scoring._check_yaku_tanyao` with the default `allow_kuitan = False`: an
open hand fails, otherwise no terminal or honor among the form's stored
tiles. -/
def checkYakuTanyao (f : WinForm) (ctx : WinContext) : Bool :=
  if ¬ctx.isMenzen then false
  else f.allTiles.all fun t => ¬(t.value ∈ terminalHonorValues)

/-- `Scoring._check_yaku_yakuhai`: one han per dragon/seat-wind/round-wind
triplet or quad among the form's meld components, deduplicated through
`list(set(...))` (kept in first-occurrence order here; only the set of
entries matters to the proofs). -/
def checkYakuYakuhai (f : WinForm) (ctx : WinContext) : List (String × Nat) :=
  let collected := (formMelds f).filterMap fun c =>
    if c.type == CompType.koutsu || c.type == CompType.kantsu then
      match c.tiles.head? with
      | none => none
      | some t0 =>
          let val := t0.value
          if val = 31 then some ("Haku", 1)
          else if val = 32 then some ("Hatsu", 1)
          else if val = 33 then some ("Chun", 1)
          else if some val = ctx.playerWind then some ("Player Wind", 1)
          else if some val = ctx.roundWind then some ("Round Wind", 1)
          else none
    else none
  collected.dedup

/-- `Scoring._find_yaku`: context yaku (riichi; concealed tsumo), then
yakuhai, then tanyao. -/
def findYaku (f : WinForm) (ctx : WinContext) : List (String × Nat) :=
  (if ctx.isRiichi then [("Riichi", 1)] else [])
    ++ (if ctx.isTsumo ∧ ctx.isMenzen then [("Menzen Tsumo", 1)] else [])
    ++ checkYakuYakuhai f ctx
    ++ (if checkYakuTanyao f ctx then [("Tanyao", 1)] else [])

/-- `Scoring._ceil_to_10`. -/
def ceilTo10 (fu : Nat) : Nat := ((fu + 9) / 10) * 10

/-- `Scoring._ceil_to_100` over the rationals the Python float arithmetic
stands for. -/
def ceilTo100 (points : ℚ) : ℚ := ((⌈points / 100⌉ : Int) : ℚ) * 100

/-- `Scoring._calculate_fu`: fixed 25 for seven pairs (`form.is_chiitoitsu`
does not exist on `WinForm`; modelled from the spec as the chiitoitsu hand
type); base 20; +10 concealed ron, +2 tsumo; per-meld triplet/quad bonuses
(`meld.id` does not exist either; the open/concealed distinction is modelled
from the spec as the component's `is_open` flag); round up to 10 unless the
total stayed at the bare 20. -/
def calculateFu (f : WinForm) (ctx : WinContext) : Nat :=
  if f.handType = HandType.chiitoitsu then 25
  else
    let fu0 := 20
    let fu1 :=
      if ctx.isMenzen ∧ ¬ctx.isTsumo then fu0 + 10
      else if ctx.isTsumo then fu0 + 2
      else fu0
    let fu2 := (formMelds f).foldl
      (fun acc c =>
        let isOpen := c.isOpen
        let isTerminalOrHonor :=
          match c.tiles.head? with
          | some t0 => terminalHonorValues.contains t0.value
          | none => false
        if c.type == CompType.koutsu then
          acc + (if isTerminalOrHonor then 4 else 2) * (if isOpen then 1 else 2)
        else if c.type == CompType.kantsu then
          acc + (if isTerminalOrHonor then 16 else 8) * (if isOpen then 1 else 2)
        else acc)
      fu1
    if fu2 = 20 then 20 else ceilTo10 fu2

/-- `Scoring._get_dora_values_from_indicators`: `scoring.py` imports only
`MAN_1` and `SOU_9` from `constants.py`, yet the loop body's first chained
comparison is `MAN_1 <= val <= MAN_9 - 1`.  `MAN_1 = 0`, so `MAN_1 <= val`
holds for every tile value and Python goes on to evaluate the right-hand
bound `MAN_9` - a name the module never defines or imports - raising
`NameError` (the later arms likewise name the undefined `PIN_1`, `PIN_9` and
`SOU_1`, but the first arm already raises).  The first loop iteration
therefore crashes for every indicator, embedded as `none`; only the empty
indicator list completes the loop and returns, with the empty set. -/
def getDoraValuesFromIndicators (indicators : List Tile) : Option (Finset Nat) :=
  match indicators with
  | [] => some ∅
  | _ :: _ => none

/-- `Scoring._calculate_dora`: red fives, plus indicator dora, plus ura dora
when riichi, over the hand and meld tiles; `none` propagates the `NameError`
that `_get_dora_values_from_indicators` raises on any non-empty indicator
list. -/
def calculateDora (hand : List Tile) (melds : List Meld) (wall : Wall)
    (ctx : WinContext) : Option Nat := do
  let allTiles := hand ++ melds.flatMap (fun m => m.tiles)
  let redCount := (allTiles.filter (fun t => t.isRed)).length
  let doraValues ← getDoraValuesFromIndicators wall.doraIndicators
  let doraCount := (allTiles.filter (fun t => t.value ∈ doraValues)).length
  let uraCount ←
    if ctx.isRiichi then do
      let uraValues ← getDoraValuesFromIndicators wall.uraDoraIndicators
      pure ((allTiles.filter (fun t => t.value ∈ uraValues)).length)
    else pure 0
  pure (redCount + doraCount + uraCount)

/-- The `(han, fu) -> (non_dealer_ron, dealer_ron)` table of `Scoring`. -/
def scoreTable : List ((Int × Int) × (Int × Int)) :=
  [((1, 30), (1000, 1500)), ((1, 40), (1300, 2000)), ((1, 50), (1600, 2400)),
   ((2, 25), (1600, 2400)), ((2, 30), (2000, 2900)), ((2, 40), (2600, 3900)),
   ((2, 50), (3200, 4800)), ((3, 30), (3900, 5800)), ((3, 40), (5200, 7700)),
   ((3, 50), (6400, 9600)), ((4, 30), (7700, 11600)), ((4, 40), (8000, 12000))]

/-- The mangan-and-above table of `Scoring` (5 through 13 han). -/
def manganScores (totalHan : Int) : Int :=
  if totalHan = 5 then 8000
  else if totalHan = 6 ∨ totalHan = 7 then 12000
  else if totalHan = 8 ∨ totalHan = 9 ∨ totalHan = 10 then 16000
  else if totalHan = 11 ∨ totalHan = 12 then 24000
  else if totalHan = 13 then 32000
  else 32000       -- `.get(total_han, self.mangan_scores[13])`

/-- Integer ceiling to the next 100 (used on the int-valued point totals of
`_calculate_points`). -/
def ceilTo100Int (points : Int) : Int := ((points + 99).fdiv 100) * 100

/-- `Scoring._calculate_points`: yakuman and mangan tables first, then the
(han, fu) table, then the kiriage check and the doubling formula
`fu * 2^(han+2)` capped at 2000, scaled by 4 (non-dealer) or 6 (dealer) and
capped at the 8000 mangan ceiling. -/
def calculatePoints (totalHan : Int) (fu : Int) (ctx : WinContext) : Int :=
  if 13 ≤ totalHan then 32000
  else if 5 ≤ totalHan then manganScores totalHan
  else
    let basePoints : Int :=
      match scoreTable.find? (fun e => e.1 = (totalHan, fu)) with
      | some e => if ctx.isDealer then e.2.2 else e.2.1
      | none =>
          if (totalHan = 4 ∧ 40 ≤ fu) ∨ (totalHan = 3 ∧ 70 ≤ fu) then 8000
          else
            let raw := fu * 2 ^ (totalHan + 2).toNat
            if 2000 < raw then 2000 else raw
    let totalPoints := basePoints * (if ctx.isDealer then 6 else 4)
    if 8000 ≤ totalPoints then 8000
    else ceilTo100Int totalPoints

/-- `Scoring._is_furiten`: an acknowledged stub that returns `False`. -/
def scoringIsFuriten : Bool := false

/-- One iteration of the best-form loop of `calculate_win_details` step 5:
compute the form's yaku list, han and fu, and keep it when it strictly
improves on the (han, fu) pair held so far. -/
def bestFormStep (ctx : WinContext)
    (acc : Option WinForm × Int × Int × List (String × Nat)) (form : WinForm) :
    Option WinForm × Int × Int × List (String × Nat) :=
  let yakuList := findYaku form ctx
  let han : Int := ((yakuList.map (fun y => y.2)).sum : Nat)
  let fu : Int := (calculateFu form ctx : Nat)
  if acc.2.1 < han ∨ (han = acc.2.1 ∧ acc.2.2.1 < fu) then
    (some form, han, fu, yakuList)
  else acc

/-- The best-form fold of `calculate_win_details` step 5: keep the first form
maximizing `(han, fu)` lexicographically with strict improvement, starting
from the sentinels `best_han = best_fu = -1`. -/
def bestFormFold (forms : List WinForm) (ctx : WinContext) :
    Option WinForm × Int × Int × List (String × Nat) :=
  forms.foldl (bestFormStep ctx) (none, -1, -1, [])

/-- `Scoring.calculate_win_details`: assemble the 14 tiles and the context,
check the yakuman stub, and otherwise call
`hand_analyzer.find_all_winning_forms(final_hand, player.melds)` - two
arguments for a method whose third parameter `winning_tile` has no default -
which raises `TypeError` on every evaluation.  `_find_yakuman` is a stub
returning `[]`, so the crashing branch is always the one taken and no later
step (best-form loop, one-han minimum, dora, points, furiten) is ever
reached; the dead yakuman branch is kept for structure. -/
def calculateWinDetails (player : PlayerState) (winningTile : Tile)
    (isTsumo : Bool) (s : GState) : Option WinDetails :=
  let details : WinDetails := { winningTile := some winningTile, isTsumo := isTsumo }
  let _finalHand := player.hand
    ++ (if ¬player.hand.contains winningTile then [winningTile] else [])
  let _ctx := getWinContext player s isTsumo
  let yakumanList := findYakuman
  if yakumanList ≠ [] then
    -- unreachable with the stub; kept for structure
    some { details with isYakuman := true, yakumanList := yakumanList,
                        han := 13 * (yakumanList.length : Int),
                        totalHan := 13 * (yakumanList.length : Int),
                        scorePoints := 32000 * (yakumanList.length : Int),
                        isValidWin := true }
  else
    -- `find_all_winning_forms(final_hand, player.melds)`: TypeError
    none

/-- `Scoring.get_final_score_and_payout`, as a function of the quantities the
source reads.  The winner's seat and dealer flag are modelled from the spec:
the source reads `win_details.win_form.player_index` and `winner.is_dealer`,
attributes `WinForm` and `PlayerState` do not define (both marked "assumed
carried" in the source).  Payments are rationals because the source divides
with `/`; `none` embeds the `ValueError` on a ron without a loser. -/
def getFinalScoreAndPayout (isTsumo : Bool) (points : Int) (honba sticks : Nat)
    (winnerIndex dealerIndex : Fin 4) (loserIndex : Option (Fin 4)) :
    Option (Fin 4 → ℚ) :=
  let honbaPoints : ℚ := (honba : ℚ) * (if isTsumo then 300 else 100)
  let riichiStickPoints : ℚ := (sticks : ℚ) * 1000
  let totalWinPoints : ℚ := (points : ℚ) + honbaPoints + riichiStickPoints
  if isTsumo then
    let base : Fin 4 → ℚ :=
      if winnerIndex = dealerIndex then
        let payment : ℚ := ceilTo100 ((points : ℚ) / 3) + honbaPoints / 3
        fun i => if i ≠ winnerIndex then -payment else 0
      else
        let dealerPayment : ℚ := ceilTo100 ((points : ℚ) / 2) + honbaPoints / 3
        let nonDealerPayment : ℚ := ceilTo100 ((points : ℚ) / 4) + honbaPoints / 3
        fun i =>
          if i = winnerIndex then 0
          else if i = dealerIndex then -dealerPayment
          else -nonDealerPayment
    some fun i => if i = winnerIndex then totalWinPoints else base i
  else
    match loserIndex with
    | none => none
    | some loser =>
        some fun i =>
          if i = winnerIndex then totalWinPoints
          else if i = loser then -((points : ℚ) + honbaPoints)
          else 0

end Scoring

/-- The player list built by `GameState.__init__` with the default
configuration (4 players, 25000 points). -/
def initialPlayers : List PlayerState :=
  (List.range 4).map fun i =>
    { playerIndex := i, score := 25000, seatWind := none, hand := [],
      drawnTile := none, melds := [], discards := [], riichiDeclared := false,
      riichiTurn := -1, ippatsuChance := false, isMenzen := true }

/-- `GameState.__init__` with the default configuration and an empty wall
(the wall is populated by `reset_new_hand`). -/
def initialGState : GState :=
  { players := initialPlayers,
    wall := { liveTiles := [], deadWallTiles := [], doraIndicators := [],
              uraDoraIndicators := [], replacementTilesDrawn := 0 },
    roundWind := 0, roundNumber := 1, honba := 0, riichiSticks := 0,
    dealerIndex := 0, currentPlayerIndex := 0, gamePhase := GamePhase.GAME_START,
    lastDiscardedTile := none, lastDiscardPlayerIndex := some (-1),
    lastActionType := none, lastActionPlayer := none,
    responseDeclarations := [], respondersToPrompt := [],
    respondedToCurrentDiscard := [], handOverFlag := false, turnNumber := 0 }

/-- A freshly dealt hand from the unshuffled generated wall (dealer seat 0):
seat 0 holds 1m×4 2m×4 3m×4 4m with a drawn red 5p, seat 1 holds
4m×3 5m(r) 5m×3 6m×4 7m×2. -/
def dealtState : GState := GameState.resetNewHand initialGState Wall.generateTiles

/-- Seat 0 discards the 4m it holds (a legal discard from the dealt state). -/
def c4DiscardAction : Action := { type := ActionType.DISCARD, tile := some ⟨3, false⟩ }

/-- Seat 1, holding three 4m, claims the discarded 4m as a pon (the action
`generate_candidate_actions` offers in the response phase). -/
def c4PonAction : Action := { type := ActionType.PON, tile := some ⟨3, false⟩ }

/-- The spec's tenpai example hand: 23455m 456p 789s 11z as tile values
(m 0-8, p 9-17, s 18-26, east wind 27). -/
def specExampleHand : List Tile :=
  [⟨1, false⟩, ⟨2, false⟩, ⟨3, false⟩, ⟨4, false⟩, ⟨4, false⟩,
   ⟨12, false⟩, ⟨13, false⟩, ⟨14, false⟩,
   ⟨24, false⟩, ⟨25, false⟩, ⟨26, false⟩,
   ⟨27, false⟩, ⟨27, false⟩]

/-- The 13 tiles 123m 456m 789m 123p 1z of the C2 witness: a hand whose only
completion yaku could come from dora (the pair is the east wind, so tanyao
fails, and no context or yakuhai yaku applies on a plain ron). -/
def c2Hand : List Tile :=
  [⟨0, false⟩, ⟨1, false⟩, ⟨2, false⟩, ⟨3, false⟩, ⟨4, false⟩, ⟨5, false⟩,
   ⟨6, false⟩, ⟨7, false⟩, ⟨8, false⟩, ⟨9, false⟩, ⟨10, false⟩, ⟨11, false⟩,
   ⟨27, false⟩]

/-- The C2 failing input's claimant: seat 1, concealed, no riichi, holding
`c2Hand`. -/
def c2Player : PlayerState :=
  { playerIndex := 1, score := 25000, seatWind := some 1, hand := c2Hand,
    drawnTile := none, melds := [], discards := [], riichiDeclared := false,
    riichiTurn := -1, ippatsuChance := false, isMenzen := true }

/-- The C2 failing input's game state: a 1m dora indicator, so the 2m in
`c2Hand` would count as dora if the dora step were ever reached. -/
def c2State : GState :=
  { initialGState with
    wall := { liveTiles := [], deadWallTiles := [],
              doraIndicators := [⟨0, false⟩], uraDoraIndicators := [],
              replacementTilesDrawn := 0 } }

/-- The state fields the IllegalAction contract promises to leave unchanged:
every player's score, hand, melds, discards and riichi flags, the
riichi-stick pool, the wall, the phase, and the current acting player. -/
def coreView (s : GState) :
    List (Int × List Tile × List Meld × List Tile × Bool × Int)
      × Nat × Wall × GamePhase × Int :=
  (s.players.map fun p =>
      (p.score, p.hand, p.melds, p.discards, p.riichiDeclared, p.riichiTurn),
   s.riichiSticks, s.wall, s.gamePhase, s.currentPlayerIndex)

/-- Priority class of a declared action as the spec assigns it: Ron 3,
Pon/Kan 2, Chi 1, Pass (and anything else) 0. -/
def actionPriorityClass : ActionType → Nat
  | ActionType.RON => 3
  | ActionType.KAN => 2
  | ActionType.PON => 2
  | ActionType.CHI => 1
  | _ => 0

/-- The priority class declared at a seat (0 when the seat did not declare). -/
def declClass (lookup : Nat → Option Action) (seat : Nat) : Nat :=
  match lookup seat with
  | some a => actionPriorityClass a.type
  | none => 0

/-- The indicator-to-dora cycle as the spec words it: for number tiles the
next rank in the same suit with 9 wrapping back to 1; for winds the 4-cycle
east→south→west→north→east; for dragons the 3-cycle white→green→red→white. -/
def doraNextSpec (v : Nat) : Nat :=
  if v < 27 then (v / 9) * 9 + (v % 9 + 1) % 9
  else if v < 31 then 27 + (v - 27 + 1) % 4
  else 31 + (v - 31 + 1) % 3

section Lemmas

/-- Concrete kokushi hand used by the C9 witness: the thirteen terminal and
honor tile types with the red-dragon (value 33) doubled. -/
def c9Hand : List Tile :=
  [0, 8, 9, 17, 18, 26, 27, 28, 29, 30, 31, 32, 33, 33].map (fun v => Tile.mk v false)

def c9Meld : Meld := Meld.mk MeldTag.atPON [⟨2, false⟩, ⟨2, false⟩, ⟨2, false⟩]

/-- The Pon declaration of the C1 example. -/
def c1Pon : Action := { type := ActionType.PON, tile := some ⟨3, false⟩ }

def c1Ron : Action := { type := ActionType.RON, winningTile := some ⟨3, false⟩ }

def c1Pass : Action := { type := ActionType.PASS }

/-- The skip-scan drops, for each tile shape, exactly as many copies as the
still-needed counter holds (bounded by what the hand has). -/
lemma removeScan_count (hand : List Tile) :
    ∀ (need : List Tile) (u : Tile),
      (GameState.removeScan hand need).count u
        = hand.count u - min (hand.count u) (need.count u) := by
  induction hand with
  | nil => intro need u; simp [GameState.removeScan]
  | cons t rest ih =>
      intro need u
      by_cases hpos : 0 < need.count t
      · rw [GameState.removeScan, if_pos hpos]
        rcases eq_or_ne u t with rfl | hne
        · have h1 : (need.erase u).count u = need.count u - 1 :=
            List.count_erase_self ..
          have h2 : (u :: rest).count u = rest.count u + 1 := by
            simp [List.count_cons]
          rw [ih, h1, h2]
          omega
        · have h1 : (need.erase t).count u = need.count u :=
            List.count_erase_of_ne hne ..
          have h2 : (t :: rest).count u = rest.count u := by
            simp [List.count_cons, hne]
          rw [ih, h1, h2]
      · rw [GameState.removeScan, if_neg hpos]
        have hz : need.count t = 0 := by omega
        rcases eq_or_ne u t with rfl | hne
        · have h2 : (u :: rest).count u = rest.count u + 1 := by
            simp [List.count_cons]
          have h3 : (u :: GameState.removeScan rest need).count u
              = (GameState.removeScan rest need).count u + 1 := by
            simp [List.count_cons]
          rw [h2, h3, ih, hz]
          omega
        · have h2 : (t :: rest).count u = rest.count u := by
            simp [List.count_cons, hne]
          have h3 : (t :: GameState.removeScan rest need).count u
              = (GameState.removeScan rest need).count u := by
            simp [List.count_cons, hne]
          rw [h2, h3, ih]

end Lemmas

/-- C10: `_remove_tiles_from_hand` is all-or-nothing.  An empty request
succeeds and leaves the hand unchanged; when the hand contains the requested
multiset (tiles matched exactly, red flag included) the call succeeds and the
new hand holds, for every tile shape, the old count minus the requested
count; otherwise the call fails and the hand is exactly unchanged. -/
theorem remove_tiles_from_hand_all_or_nothing (hand tilesToRemove : List Tile) :
    (tilesToRemove = [] →
      GameState.removeTilesFromHand hand tilesToRemove = (true, hand))
    ∧ ((∀ t ∈ tilesToRemove, tilesToRemove.count t ≤ hand.count t) →
      (GameState.removeTilesFromHand hand tilesToRemove).1 = true
        ∧ ∀ u : Tile, (GameState.removeTilesFromHand hand tilesToRemove).2.count u
            = hand.count u - tilesToRemove.count u)
    ∧ ((¬ ∀ t ∈ tilesToRemove, tilesToRemove.count t ≤ hand.count t) →
      GameState.removeTilesFromHand hand tilesToRemove = (false, hand)) := by
  refine ⟨fun h => by simp [GameState.removeTilesFromHand, h], ?_, ?_⟩
  · intro hcontains
    have hany : tilesToRemove.any
        (fun t => decide (hand.count t < tilesToRemove.count t)) = false := by
      rw [List.any_eq_false]
      intro x hx
      simpa using hcontains x hx
    by_cases hemp : tilesToRemove.isEmpty
    · have : tilesToRemove = [] := List.isEmpty_iff.mp hemp
      subst this
      simp [GameState.removeTilesFromHand]
    · constructor
      · simp [GameState.removeTilesFromHand, hemp, hany]
      · intro u
        have hres : (GameState.removeTilesFromHand hand tilesToRemove).2
            = GameState.removeScan hand tilesToRemove := by
          simp [GameState.removeTilesFromHand, hemp, hany]
        rw [hres, removeScan_count]
        rcases Decidable.em (u ∈ tilesToRemove) with hu | hu
        · have := hcontains u hu
          omega
        · have : tilesToRemove.count u = 0 := List.count_eq_zero.mpr hu
          omega
  · intro hnot
    push_neg at hnot
    obtain ⟨t, ht, hlt⟩ := hnot
    have hne : tilesToRemove.isEmpty = false := by
      cases tilesToRemove with
      | nil => cases ht
      | cons a l => rfl
    have hany : tilesToRemove.any
        (fun t => decide (hand.count t < tilesToRemove.count t)) = true := by
      simp only [List.any_eq_true, decide_eq_true_eq]
      exact ⟨t, ht, hlt⟩
    simp [GameState.removeTilesFromHand, hne, hany]

/-- C10 witness: the first two conjuncts at a concrete hand and request, and
the failure conjunct at a request the hand cannot cover. -/
theorem remove_tiles_from_hand_witness :
    (GameState.removeTilesFromHand
        [⟨0, false⟩, ⟨0, false⟩, ⟨1, false⟩] [⟨0, false⟩]).1 = true
    ∧ (GameState.removeTilesFromHand
        [⟨0, false⟩, ⟨0, false⟩, ⟨1, false⟩] [⟨0, false⟩]).2.count ⟨0, false⟩ = 1
    ∧ GameState.removeTilesFromHand [⟨0, false⟩, ⟨0, false⟩, ⟨1, false⟩] []
        = (true, [⟨0, false⟩, ⟨0, false⟩, ⟨1, false⟩])
    ∧ GameState.removeTilesFromHand [⟨0, false⟩, ⟨0, false⟩, ⟨1, false⟩]
        [⟨2, false⟩] = (false, [⟨0, false⟩, ⟨0, false⟩, ⟨1, false⟩]) := by
  have h := remove_tiles_from_hand_all_or_nothing
    [⟨0, false⟩, ⟨0, false⟩, ⟨1, false⟩] [⟨0, false⟩]
  have h0 := remove_tiles_from_hand_all_or_nothing
    [⟨0, false⟩, ⟨0, false⟩, ⟨1, false⟩] ([] : List Tile)
  have h2 := remove_tiles_from_hand_all_or_nothing
    [⟨0, false⟩, ⟨0, false⟩, ⟨1, false⟩] [⟨2, false⟩]
  refine ⟨(h.2.1 (by decide)).1, ?_, h0.1 rfl, h2.2.2 (by decide)⟩
  have := (h.2.1 (by decide)).2 ⟨0, false⟩
  simpa using this

/-- C8 (code bug): the wall's indicator mapping does follow the cycle the
spec describes on every one of the 34 values (next rank with 9 wrapping to 1
in each suit, the wind 4-cycle, the dragon 3-cycle), but
`Scoring._get_dora_values_from_indicators` raises `NameError` - its first
comparison names `MAN_9`, which `scoring.py` never imports - on the first
iteration of its loop, so it crashes for every non-empty indicator list and
computes no value at all: the two implementations never agree on any of the
34 values, and only the empty indicator list returns (the empty set). -/
theorem dora_indicator_mapping_crashes :
    (∀ v : Fin 34,
      Wall.calculateNextTileValue (v : Nat) = some (doraNextSpec (v : Nat)))
    ∧ (∀ indicators : List Tile, indicators ≠ [] →
        Scoring.getDoraValuesFromIndicators indicators = none)
    ∧ Scoring.getDoraValuesFromIndicators [] = some ∅
    ∧ ∀ v : Fin 34,
        Scoring.getDoraValuesFromIndicators [⟨(v : Nat), false⟩] = none := by
  refine ⟨by decide, ?_, rfl, by decide⟩
  intro indicators h
  cases indicators with
  | nil => exact absurd rfl h
  | cons a rest => rfl

/-- C6: on an exhaustive draw, with `t` tenpai players where `0 < t < 4`,
each tenpai seat gains `3000 / t` and each noten seat loses `3000 / (4 - t)`
(so two-and-two gives +1500 and -1500); an all-tenpai or all-noten table moves
nothing. -/
theorem exhaustive_draw_penalty_split : ∀ tenpaiStatus : Fin 4 → Bool,
    (0 < ((List.finRange 4).filter tenpaiStatus).length
        ∧ ((List.finRange 4).filter tenpaiStatus).length < 4 →
      ∀ i, RulesEngine.exhaustiveDrawScoreChanges tenpaiStatus i
        = if tenpaiStatus i then
            (3000 : Int) / (((List.finRange 4).filter tenpaiStatus).length : Int)
          else
            -((3000 : Int) / ((4 - ((List.finRange 4).filter tenpaiStatus).length : Nat) : Int)))
    ∧ (((List.finRange 4).filter tenpaiStatus).length = 0
        ∨ ((List.finRange 4).filter tenpaiStatus).length = 4 →
      ∀ i, RulesEngine.exhaustiveDrawScoreChanges tenpaiStatus i = 0)
    ∧ (((List.finRange 4).filter tenpaiStatus).length = 2 →
      ∀ i, RulesEngine.exhaustiveDrawScoreChanges tenpaiStatus i
        = if tenpaiStatus i then 1500 else -1500) := by
  decide

/-- C6 witness: seats 0 and 1 tenpai, seats 2 and 3 noten: +1500 each for the
former, -1500 each for the latter. -/
theorem exhaustive_draw_penalty_witness :
    RulesEngine.exhaustiveDrawScoreChanges (fun i => decide ((i : Nat) < 2)) 0 = 1500
    ∧ RulesEngine.exhaustiveDrawScoreChanges (fun i => decide ((i : Nat) < 2)) 3 = -1500 := by
  have h := (exhaustive_draw_penalty_split (fun i => decide ((i : Nat) < 2))).2.2 (by decide)
  exact ⟨by rw [h 0]; decide, by rw [h 3]; decide⟩

/-- A list extended with one last element has that element as its
`getLastD`. -/
lemma getLastD_append_singleton (l : List Tile) (a d : Tile) :
    (l ++ [a]).getLastD d = a := by
  induction l with
  | nil => rfl
  | cons x xs ih =>
      cases xs with
      | nil => rfl
      | cons y ys => simpa using ih

/-- C3 counterexample: the spec asserts that the 13-tile hand
23455m 456p 789s 11z waits exactly on 3m and 6m (values 2 and 5); the
analyzer's wait set for that hand is not that set (it is the shanpon wait
{5m, east} = {4, 27}). -/
theorem find_wait_tiles_example_counterexample :
    HandAnalyzer.findWaitTiles specExampleHand [] ≠ ({2, 5} : Finset Nat) := by
  decide

/-- C3 (amended): for every 13-tile hand-plus-melds combination,
`find_wait_tiles` returns exactly the tile values, below the four-copy cap
over hand and melds, whose appended tile admits at least one winning
decomposition; `is_tenpai` holds exactly when that set is non-empty; and for
the concealed hand 23455m 456p 789s 11z the set is exactly {5m, east}
(values {4, 27}) rather than the {3m, 6m} the spec names. -/
theorem find_wait_tiles_characterization (hand : List Tile) (melds : List Meld)
    (h13 : hand.length + (melds.map (fun m => m.tiles.length)).sum = 13) :
    (∀ v : Nat, v ∈ HandAnalyzer.findWaitTiles hand melds
      ↔ v < 34
        ∧ countValue (hand ++ melds.flatMap (fun m => m.tiles)) v < 4
        ∧ HandAnalyzer.findAllWinningForms (hand ++ [⟨v, false⟩]) melds ⟨v, false⟩ ≠ [])
    ∧ (HandAnalyzer.isTenpai hand melds = true
        ↔ HandAnalyzer.findWaitTiles hand melds ≠ ∅)
    ∧ HandAnalyzer.findWaitTiles specExampleHand [] = ({4, 27} : Finset Nat) := by
  refine ⟨?_, ?_, by decide⟩
  · intro v
    have hshape : ∀ t : Tile,
        HandAnalyzer.checkWinShape (hand ++ [t]) melds = true
          ↔ HandAnalyzer.findAllWinningForms (hand ++ [t]) melds t ≠ [] := by
      intro t
      have hlen : ((hand ++ [t]) ++ melds.flatMap (fun m => m.tiles)).length = 14 := by
        simp only [List.length_append, List.length_flatMap, List.length_cons,
          List.length_nil, Function.comp_def]
        omega
      have hlast : (hand ++ [t]).getLastD ⟨0, false⟩ = t :=
        getLastD_append_singleton ..
      rw [HandAnalyzer.checkWinShape]
      simp only [hlen, hlast, if_neg (by omega : ¬(14 : Nat) ≠ 14)]
      simp [List.isEmpty_iff]
    rw [HandAnalyzer.findWaitTiles, if_neg (by omega)]
    simp only [Finset.mem_filter, Finset.mem_range]
    constructor
    · rintro ⟨hv, hcnt, hwin⟩
      exact ⟨hv, hcnt, (hshape ⟨v, false⟩).mp hwin⟩
    · rintro ⟨hv, hcnt, hwin⟩
      exact ⟨hv, hcnt, (hshape ⟨v, false⟩).mpr hwin⟩
  · rw [HandAnalyzer.isTenpai, if_neg (by omega)]
    exact decide_eq_true_iff

/-- C3 witness: the characterization applied to the example hand: 4 (5m) is
in the wait set because appending it yields a decomposition, and the hand is
tenpai because the wait set is non-empty. -/
theorem find_wait_tiles_witness :
    (4 : Nat) ∈ HandAnalyzer.findWaitTiles specExampleHand []
    ∧ HandAnalyzer.isTenpai specExampleHand [] = true := by
  have h := find_wait_tiles_characterization specExampleHand [] (by decide)
  exact ⟨(h.1 4).mpr (by refine ⟨by omega, by decide, by decide⟩),
    h.2.1.mpr (by decide)⟩

/-- C2 (code bug): `calculate_win_details` never reaches its one-han-minimum
check.  The yakuman stub returns `[]`, so every evaluation takes the branch
that calls `find_all_winning_forms(final_hand, player.melds)` without the
required `winning_tile` argument and raises `TypeError`; in particular the
yaku-less example hand `123m 456m 789m 123p EE` with a 1m dora indicator,
whose win the claim says is merely marked invalid, crashes the computation
instead. -/
theorem calculate_win_details_crashes :
    (∀ (player : PlayerState) (winningTile : Tile) (isTsumo : Bool) (s : GState),
      Scoring.calculateWinDetails player winningTile isTsumo s = none)
    ∧ Scoring.calculateWinDetails c2Player ⟨27, false⟩ false c2State = none :=
  ⟨fun _ _ _ _ => rfl, rfl⟩

lemma countValue_eq_countP (tiles : List Tile) (v : Nat) :
    countValue tiles v = tiles.countP (fun t => t.value == v) :=
  (List.countP_eq_length_filter _ _).symm

lemma countValue_pos_iff (tiles : List Tile) (v : Nat) :
    0 < countValue tiles v ↔ ∃ t ∈ tiles, t.value = v := by
  rw [countValue_eq_countP, List.countP_pos_iff]
  simp

lemma sum_indicator_nodup (x : Nat) :
    ∀ S : List Nat, S.Nodup → x ∈ S →
      (S.map (fun v => if x = v then 1 else 0)).sum = 1 := by
  intro S
  induction S with
  | nil => intro _ h; cases h
  | cons a S ih =>
      intro hnd hmem
      rcases List.mem_cons.mp hmem with rfl | hmem'
      · have hnotin : x ∉ S := (List.nodup_cons.mp hnd).1
        have : (S.map (fun v => if x = v then 1 else 0)).sum = 0 := by
          apply List.sum_eq_zero
          intro y hy
          rcases List.mem_map.mp hy with ⟨v, hv, rfl⟩
          have hxv : x ≠ v := by
            rintro rfl
            exact absurd hv hnotin
          simp [hxv]
        simp [this]
      · have hxa : x ≠ a := by
          rintro rfl
          exact absurd hmem' (List.nodup_cons.mp hnd).1
        have := ih (List.nodup_cons.mp hnd).2 hmem'
        simp [hxa, this]

lemma sum_map_add_distrib (f g : Nat → Nat) :
    ∀ S : List Nat, (S.map (fun v => f v + g v)).sum = (S.map f).sum + (S.map g).sum := by
  intro S
  induction S with
  | nil => rfl
  | cons a S ih =>
      simp only [List.map_cons, List.sum_cons, ih]
      ring

lemma length_eq_sum_countValue (hand : List Tile) :
    ∀ S : List Nat, S.Nodup → (∀ t ∈ hand, t.value ∈ S) →
      (S.map (countValue hand)).sum = hand.length := by
  induction hand with
  | nil =>
      intro S _ _
      have : S.map (countValue []) = S.map (fun _ => 0) := by
        apply List.map_congr_left
        intro v _
        simp [countValue]
      simp [this]
  | cons t rest ih =>
      intro S hnd hall
      have hsplit : ∀ v, countValue (t :: rest) v
          = countValue rest v + (if t.value = v then 1 else 0) := by
        intro v
        simp only [countValue, List.filter_cons]
        by_cases h : t.value = v
        · simp [h]
        · simp [h, beq_iff_eq]
      have hmap : S.map (countValue (t :: rest))
          = S.map (fun v => countValue rest v + (if t.value = v then 1 else 0)) := by
        apply List.map_congr_left
        intro v _
        exact hsplit v
      rw [hmap]
      rw [sum_map_add_distrib (countValue rest) (fun v => if t.value = v then 1 else 0) S,
        ih S hnd (fun u hu => hall u (List.mem_cons_of_mem t hu)),
        sum_indicator_nodup t.value S hnd (hall t (List.mem_cons_self t rest))]
      simp


lemma sum_ge_length_add_countP (f : Nat → Nat) :
    ∀ S : List Nat, (∀ v ∈ S, 1 ≤ f v) →
      S.length + S.countP (fun v => f v == 2) ≤ (S.map f).sum := by
  intro S
  induction S with
  | nil => intro _; simp
  | cons a S ih =>
      intro hge
      have hS := ih (fun v hv => hge v (List.mem_cons_of_mem a hv))
      have ha := hge a (List.mem_cons_self a S)
      simp only [List.map_cons, List.sum_cons, List.length_cons]
      by_cases h2 : f a = 2
      · have hc : List.countP (fun v => f v == 2) (a :: S)
            = List.countP (fun v => f v == 2) S + 1 :=
          List.countP_cons_of_pos _ _ (by simpa using h2)
        rw [hc]
        omega
      · have hc : List.countP (fun v => f v == 2) (a :: S)
            = List.countP (fun v => f v == 2) S :=
          List.countP_cons_of_neg _ _ (by simpa using h2)
        rw [hc]
        omega

lemma counts_structure (f : Nat → Nat) :
    ∀ S : List Nat, (∀ v ∈ S, 1 ≤ f v) →
      (S.map f).sum = S.length + S.countP (fun v => f v == 2) →
      (∀ v ∈ S, f v = 1 ∨ f v = 2)
        ∧ S.countP (fun v => f v == 1) + S.countP (fun v => f v == 2) = S.length := by
  intro S
  induction S with
  | nil => intro _ _; exact ⟨fun v hv => absurd hv (List.not_mem_nil v), rfl⟩
  | cons a S ih =>
      intro hge hsum
      have hS := sum_ge_length_add_countP f S (fun v hv => hge v (List.mem_cons_of_mem a hv))
      have ha := hge a (List.mem_cons_self a S)
      simp only [List.map_cons, List.sum_cons, List.length_cons] at hsum ⊢
      by_cases h2 : f a = 2
      · have hc2 : List.countP (fun v => f v == 2) (a :: S)
            = List.countP (fun v => f v == 2) S + 1 :=
          List.countP_cons_of_pos _ _ (by simpa using h2)
        rw [hc2] at hsum ⊢
        have hsum' : (S.map f).sum = S.length + S.countP (fun v => f v == 2) := by omega
        obtain ⟨hall, hcnt⟩ := ih (fun v hv => hge v (List.mem_cons_of_mem a hv)) hsum'
        refine ⟨?_, ?_⟩
        · intro v hv
          rcases List.mem_cons.mp hv with rfl | hv'
          · exact Or.inr h2
          · exact hall v hv'
        · have hc1 : List.countP (fun v => f v == 1) (a :: S)
              = List.countP (fun v => f v == 1) S :=
            List.countP_cons_of_neg _ _ (by simp [h2])
          rw [hc1]
          omega
      · have hc2 : List.countP (fun v => f v == 2) (a :: S)
            = List.countP (fun v => f v == 2) S :=
          List.countP_cons_of_neg _ _ (by simpa using h2)
        rw [hc2] at hsum ⊢
        have h1 : f a = 1 := by omega
        have hsum' : (S.map f).sum = S.length + S.countP (fun v => f v == 2) := by omega
        obtain ⟨hall, hcnt⟩ := ih (fun v hv => hge v (List.mem_cons_of_mem a hv)) hsum'
        refine ⟨?_, ?_⟩
        · intro v hv
          rcases List.mem_cons.mp hv with rfl | hv'
          · exact Or.inl h1
          · exact hall v hv'
        · have hc1 : List.countP (fun v => f v == 1) (a :: S)
              = List.countP (fun v => f v == 1) S + 1 :=
            List.countP_cons_of_pos _ _ (by simpa using h1)
          rw [hc1]
          omega

lemma countP_eq_of_mem_iff (p : Nat → Bool) (l l2 : List Nat)
    (hl : l.Nodup) (hl2 : l2.Nodup) (hmem : ∀ x, x ∈ l ↔ x ∈ l2) :
    l.countP p = l2.countP p :=
  ((List.perm_ext_iff_of_nodup hl hl2).mpr hmem).countP_eq p

lemma length_eq_of_mem_iff (l l2 : List Nat)
    (hl : l.Nodup) (hl2 : l2.Nodup) (hmem : ∀ x, x ∈ l ↔ x ∈ l2) :
    l.length = l2.length :=
  ((List.perm_ext_iff_of_nodup hl hl2).mpr hmem).length_eq



lemma findChiitoitsuForms_ne_nil_iff (hand : List Tile) (t : Tile) :
    HandAnalyzer.findChiitoitsuForms hand t ≠ [] ↔
      hand.length = 14
        ∧ (HandAnalyzer.distinctTiles hand).length = 7
        ∧ ∀ u ∈ HandAnalyzer.distinctTiles hand, hand.count u = 2 := by
  unfold HandAnalyzer.findChiitoitsuForms
  by_cases h1 : hand.length ≠ 14
  · rw [if_pos h1]
    exact iff_of_false (by simp) (fun hc => h1 hc.1)
  · rw [if_neg h1]
    have h14 : hand.length = 14 := not_not.mp h1
    by_cases h2 : (HandAnalyzer.distinctTiles hand).length = 7
        ∧ ∀ u ∈ HandAnalyzer.distinctTiles hand, hand.count u = 2
    · rw [if_pos h2]
      exact iff_of_true (by simp) ⟨h14, h2.1, h2.2⟩
    · rw [if_neg h2]
      exact iff_of_false (by simp) (fun hc => h2 ⟨hc.2.1, hc.2.2⟩)

lemma findKokushiForms_ne_nil_iff (hand : List Tile) (t : Tile) :
    HandAnalyzer.findKokushiForms hand t ≠ [] ↔
      hand.length = 14
        ∧ (∀ v ∈ terminalHonorValues, ∃ u ∈ hand, u.value = v)
        ∧ (∀ u ∈ hand, u.value ∈ terminalHonorValues
            ∧ (countValue hand u.value = 1 ∨ countValue hand u.value = 2))
        ∧ (((hand.map (fun u => u.value)).dedup.filter
            (fun v => countValue hand v == 2)).length = 1
          ∧ ((hand.map (fun u => u.value)).dedup.filter
            (fun v => countValue hand v == 1)).length = 12) := by
  unfold HandAnalyzer.findKokushiForms
  by_cases h1 : hand.length ≠ 14
  · rw [if_pos h1]
    exact iff_of_false (by simp) (fun hc => h1 hc.1)
  · rw [if_neg h1]
    have h14 : hand.length = 14 := not_not.mp h1
    by_cases h2 : ∀ v ∈ terminalHonorValues, ∃ u ∈ hand, u.value = v
    · rw [if_neg (not_not_intro h2)]
      by_cases h3 : ∀ u ∈ hand, u.value ∈ terminalHonorValues
          ∧ (countValue hand u.value = 1 ∨ countValue hand u.value = 2)
      · rw [if_neg (not_not_intro h3)]
        dsimp only
        by_cases h4 : ((hand.map (fun u => u.value)).dedup.filter
              (fun v => countValue hand v == 2)).length = 1
            ∧ ((hand.map (fun u => u.value)).dedup.filter
              (fun v => countValue hand v == 1)).length = 12
        · rw [if_pos h4]
          exact iff_of_true (by simp) ⟨h14, h2, h3, h4⟩
        · rw [if_neg h4]
          exact iff_of_false (by simp) (fun hc => h4 hc.2.2.2)
      · rw [if_pos h3]
        exact iff_of_false (by simp) (fun hc => h3 hc.2.2.1)
    · rw [if_pos h2]
      exact iff_of_false (by simp) (fun hc => h2 hc.2.1)

lemma kokushi_conditions_iff (hand : List Tile) (h14 : hand.length = 14) :
    ((∀ v ∈ terminalHonorValues, ∃ u ∈ hand, u.value = v)
      ∧ (∀ u ∈ hand, u.value ∈ terminalHonorValues
          ∧ (countValue hand u.value = 1 ∨ countValue hand u.value = 2))
      ∧ (((hand.map (fun u => u.value)).dedup.filter
          (fun v => countValue hand v == 2)).length = 1
        ∧ ((hand.map (fun u => u.value)).dedup.filter
          (fun v => countValue hand v == 1)).length = 12))
    ↔ ((∀ v ∈ terminalHonorValues, ∃ u ∈ hand, u.value = v)
      ∧ (∀ u ∈ hand, u.value ∈ terminalHonorValues)
      ∧ terminalHonorValues.countP (fun v => countValue hand v == 2) = 1) := by
  have hTHVnd : terminalHonorValues.Nodup := by decide
  have hdvnd : ((hand.map (fun u => u.value)).dedup).Nodup := List.nodup_dedup _
  have hmemdv : ∀ v, v ∈ (hand.map (fun u => u.value)).dedup ↔ ∃ u ∈ hand, u.value = v := by
    intro v
    simp [List.mem_dedup]
  constructor
  · rintro ⟨hpres, hok, hpc, _⟩
    have hiff : ∀ v, v ∈ (hand.map (fun u => u.value)).dedup ↔ v ∈ terminalHonorValues := by
      intro v
      constructor
      · intro hv
        obtain ⟨u, hu, rfl⟩ := (hmemdv v).mp hv
        exact (hok u hu).1
      · intro hv
        exact (hmemdv v).mpr (hpres v hv)
    refine ⟨hpres, fun u hu => (hok u hu).1, ?_⟩
    rw [← countP_eq_of_mem_iff (fun v => countValue hand v == 2) _ _ hdvnd hTHVnd hiff]
    rw [List.countP_eq_length_filter]
    exact hpc
  · rintro ⟨hpres, hall, hcp⟩
    have hiff : ∀ v, v ∈ (hand.map (fun u => u.value)).dedup ↔ v ∈ terminalHonorValues := by
      intro v
      constructor
      · intro hv
        obtain ⟨u, hu, rfl⟩ := (hmemdv v).mp hv
        exact hall u hu
      · intro hv
        exact (hmemdv v).mpr (hpres v hv)
    have hlen13 : ((hand.map (fun u => u.value)).dedup).length = 13 := by
      rw [length_eq_of_mem_iff _ _ hdvnd hTHVnd hiff]
      decide
    have hcnt2 : ((hand.map (fun u => u.value)).dedup).countP
        (fun v => countValue hand v == 2) = 1 := by
      rw [countP_eq_of_mem_iff (fun v => countValue hand v == 2) _ _ hdvnd hTHVnd hiff]
      exact hcp
    have hsum : (((hand.map (fun u => u.value)).dedup).map (countValue hand)).sum = 14 := by
      rw [length_eq_sum_countValue hand _ hdvnd
        (fun u hu => (hmemdv u.value).mpr ⟨u, hu, rfl⟩)]
      exact h14
    have hge : ∀ v ∈ (hand.map (fun u => u.value)).dedup, 1 ≤ countValue hand v := by
      intro v hv
      exact (countValue_pos_iff hand v).mpr ((hmemdv v).mp hv)
    obtain ⟨hall12, hsum12⟩ := counts_structure (countValue hand) _ hge (by omega)
    refine ⟨hpres, ?_, ?_⟩
    · intro u hu
      exact ⟨hall u hu, hall12 u.value ((hmemdv u.value).mpr ⟨u, hu, rfl⟩)⟩
    · constructor
      · rw [← List.countP_eq_length_filter]
        exact hcnt2
      · rw [← List.countP_eq_length_filter]
        omega

/-- C9: special-shape recognition for a 14-tile hand.  Seven pairs is
recognised exactly when the hand has exactly 7 distinct tiles each counted
twice; thirteen orphans exactly when all 13 terminal/honor values are
present, every tile is a terminal/honor, and exactly one value is doubled;
and with any open meld `find_all_winning_forms` consults only the
standard-form search, bypassing both special-shape checks. -/
theorem special_shape_recognition (hand : List Tile) (t : Tile) (melds : List Meld)
    (h14 : hand.length = 14) :
    (HandAnalyzer.findChiitoitsuForms hand t ≠ [] ↔
      ((HandAnalyzer.distinctTiles hand).length = 7
        ∧ ∀ u ∈ HandAnalyzer.distinctTiles hand, hand.count u = 2))
    ∧ (HandAnalyzer.findKokushiForms hand t ≠ [] ↔
      ((∀ v ∈ terminalHonorValues, ∃ u ∈ hand, u.value = v)
        ∧ (∀ u ∈ hand, u.value ∈ terminalHonorValues)
        ∧ terminalHonorValues.countP (fun v => countValue hand v == 2) = 1))
    ∧ (melds ≠ [] →
      HandAnalyzer.findAllWinningForms hand melds t
        = HandAnalyzer.findStandardForms hand (HandAnalyzer.openComponentsOfMelds melds) t) := by
  refine ⟨?_, ?_, ?_⟩
  · rw [findChiitoitsuForms_ne_nil_iff]
    simp [h14]
  · rw [findKokushiForms_ne_nil_iff]
    rw [show (hand.length = 14
          ∧ (∀ v ∈ terminalHonorValues, ∃ u ∈ hand, u.value = v)
          ∧ (∀ u ∈ hand, u.value ∈ terminalHonorValues
              ∧ (countValue hand u.value = 1 ∨ countValue hand u.value = 2))
          ∧ (((hand.map (fun u => u.value)).dedup.filter
              (fun v => countValue hand v == 2)).length = 1
            ∧ ((hand.map (fun u => u.value)).dedup.filter
              (fun v => countValue hand v == 1)).length = 12))
        = ((∀ v ∈ terminalHonorValues, ∃ u ∈ hand, u.value = v)
          ∧ (∀ u ∈ hand, u.value ∈ terminalHonorValues
              ∧ (countValue hand u.value = 1 ∨ countValue hand u.value = 2))
          ∧ (((hand.map (fun u => u.value)).dedup.filter
              (fun v => countValue hand v == 2)).length = 1
            ∧ ((hand.map (fun u => u.value)).dedup.filter
              (fun v => countValue hand v == 1)).length = 12))
      from propext (by simp [h14])]
    exact kokushi_conditions_iff hand h14
  · intro hm
    have hne : melds.isEmpty = false := by
      simp [List.isEmpty_iff, hm]
    simp [HandAnalyzer.findAllWinningForms, hne]

theorem special_shape_recognition_witness :
    c9Hand.length = 14
      ∧ HandAnalyzer.findKokushiForms c9Hand ⟨33, false⟩ ≠ []
      ∧ HandAnalyzer.findChiitoitsuForms c9Hand ⟨33, false⟩ = []
      ∧ HandAnalyzer.findAllWinningForms c9Hand [c9Meld] ⟨33, false⟩
          = HandAnalyzer.findStandardForms c9Hand
              (HandAnalyzer.openComponentsOfMelds [c9Meld]) ⟨33, false⟩ := by
  refine ⟨by decide, ?_, by decide, ?_⟩
  · exact (special_shape_recognition c9Hand ⟨33, false⟩ [c9Meld] (by decide)).2.1.mpr
      (by decide)
  · exact (special_shape_recognition c9Hand ⟨33, false⟩ [c9Meld] (by decide)).2.2
      (by decide)

lemma scanDeclarations_eq_none_iff (lookup : Nat → Option Action) (pred : Action → Bool) :
    ∀ seats : List Nat, scanDeclarations lookup pred seats = none ↔
      ∀ s ∈ seats, ∀ a, lookup s = some a → pred a = false := by
  intro seats
  induction seats with
  | nil => simp [scanDeclarations]
  | cons seat rest ih =>
      rw [scanDeclarations]
      cases hl : lookup seat with
      | none =>
          rw [ih]
          constructor
          · intro h s hs a ha
            rcases List.mem_cons.mp hs with rfl | hs'
            · rw [hl] at ha; cases ha
            · exact h s hs' a ha
          · intro h s hs a ha
            exact h s (List.mem_cons_of_mem seat hs) a ha
      | some a =>
          by_cases hp : pred a = true
          · simp only [hp, if_true]
            constructor
            · intro h; cases h
            · intro h
              have := h seat (List.mem_cons_self seat rest) a hl
              rw [hp] at this; cases this
          · have hp' : pred a = false := by
              cases hpa : pred a
              · rfl
              · exact absurd hpa hp
            simp only [hp', Bool.false_eq_true, if_false]
            rw [ih]
            constructor
            · intro h s hs b hb
              rcases List.mem_cons.mp hs with rfl | hs'
              · rw [hl] at hb
                cases hb
                exact hp'
              · exact h s hs' b hb
            · intro h s hs b hb
              exact h s (List.mem_cons_of_mem seat hs) b hb

lemma scanDeclarations_eq_some (lookup : Nat → Option Action) (pred : Action → Bool) :
    ∀ seats : List Nat, ∀ a : Action, ∀ p : Nat,
      scanDeclarations lookup pred seats = some (a, p) →
      lookup p = some a ∧ pred a = true
        ∧ ∃ pre post, seats = pre ++ p :: post
            ∧ ∀ s ∈ pre, ∀ b, lookup s = some b → pred b = false := by
  intro seats
  induction seats with
  | nil => intro a p h; cases h
  | cons seat rest ih =>
      intro a p h
      rw [scanDeclarations] at h
      cases hl : lookup seat with
      | none =>
          rw [hl] at h
          obtain ⟨h1, h2, pre, post, hsplit, hpre⟩ := ih a p h
          refine ⟨h1, h2, seat :: pre, post, by rw [hsplit]; rfl, ?_⟩
          intro s hs b hb
          rcases List.mem_cons.mp hs with rfl | hs'
          · rw [hl] at hb; cases hb
          · exact hpre s hs' b hb
      | some c =>
          rw [hl] at h
          dsimp only at h
          by_cases hp : pred c = true
          · rw [if_pos hp] at h
            cases h
            exact ⟨hl, hp, [], rest, rfl, by intro s hs; cases hs⟩
          · have hp' : pred c = false := by
              cases hpc : pred c
              · rfl
              · exact absurd hpc hp
            rw [if_neg hp] at h
            obtain ⟨h1, h2, pre, post, hsplit, hpre⟩ := ih a p h
            refine ⟨h1, h2, seat :: pre, post, by rw [hsplit]; rfl, ?_⟩
            intro s hs b hb
            rcases List.mem_cons.mp hs with rfl | hs'
            · rw [hl] at hb
              cases hb
              exact hp'
            · exact hpre s hs' b hb

lemma declClass_le_one_iff (lookup : Nat → Option Action) (s : Nat) :
    declClass lookup s ≤ 1 ↔
      ∀ a, lookup s = some a →
        (a.type == ActionType.RON) = false
          ∧ (a.type == ActionType.PON || a.type == ActionType.KAN) = false := by
  unfold declClass
  cases hl : lookup s with
  | none => simp
  | some a =>
      dsimp only
      constructor
      · intro h b hb
        have hba : a = b := by injection hb
        subst hba
        cases htype : a.type <;> simp_all [actionPriorityClass]
      · intro h
        have h2 := h a rfl
        cases htype : a.type <;> simp_all [actionPriorityClass]

lemma declClass_le_two_iff (lookup : Nat → Option Action) (s : Nat) :
    declClass lookup s ≤ 2 ↔
      ∀ a, lookup s = some a → (a.type == ActionType.RON) = false := by
  unfold declClass
  cases hl : lookup s with
  | none => simp
  | some a =>
      dsimp only
      constructor
      · intro h b hb
        have hba : a = b := by injection hb
        subst hba
        cases htype : a.type <;> simp_all [actionPriorityClass]
      · intro h
        have h2 := h a rfl
        cases htype : a.type <;> simp_all [actionPriorityClass]

lemma declClass_le_three (lookup : Nat → Option Action) (s : Nat) :
    declClass lookup s ≤ 3 := by
  unfold declClass
  cases lookup s with
  | none => simp
  | some a =>
      dsimp only
      cases htype : a.type <;> simp [actionPriorityClass, htype]

lemma declClass_of_lookup (lookup : Nat → Option Action) (p : Nat) (a : Action)
    (h : lookup p = some a) : declClass lookup p = actionPriorityClass a.type := by
  unfold declClass
  rw [h]

lemma ponkan_pred_class (a : Action)
    (h : (a.type == ActionType.PON || a.type == ActionType.KAN) = true) :
    actionPriorityClass a.type = 2 := by
  cases htype : a.type <;> simp_all [actionPriorityClass]

/-- C1: response-priority resolution over the declaration map.  The resolver
returns `none` exactly when no scanned seat declared Ron/Pon/Kan and the seat
after the discarder did not declare Chi; any returned declaration is recorded
at its seat, is never a Pass, belongs to the highest declared priority class
(Ron 3, Pon/Kan 2, Chi 1, Pass 0), is taken at the counter-clockwise-closest
declaring seat of that class over the scan order discarder-1, -2, -3 (mod 4),
and a winning Chi can only come from the seat after the discarder; the
spec's example `{seat1: Pon, seat2: Ron, seat3: Pass}` with discarder seat 0
resolves to `(Ron, seat2)` in all six recording orders. -/
theorem response_priority_resolution (lookup : Nat → Option Action) (d : Int) :
    (resolveResponsePriorities lookup d 4 = none ↔
      ((∀ s ∈ responseScanSeats d 4, declClass lookup s ≤ 1)
        ∧ ∀ a, lookup (((d + 1).emod 4).toNat) = some a → a.type ≠ ActionType.CHI))
    ∧ (∀ a p, resolveResponsePriorities lookup d 4 = some (a, p) →
        lookup p = some a
          ∧ actionPriorityClass a.type ≠ 0
          ∧ (∀ s ∈ responseScanSeats d 4,
              declClass lookup s ≤ actionPriorityClass a.type)
          ∧ (2 ≤ actionPriorityClass a.type →
              ∃ pre post, responseScanSeats d 4 = pre ++ p :: post
                ∧ ∀ s ∈ pre, declClass lookup s < actionPriorityClass a.type)
          ∧ (actionPriorityClass a.type = 1 →
              p = ((d + 1).emod 4).toNat ∧ a.type = ActionType.CHI))
    ∧ (∀ l ∈ [[(1, c1Pon), (2, c1Ron), (3, c1Pass)],
          [(1, c1Pon), (3, c1Pass), (2, c1Ron)],
          [(2, c1Ron), (1, c1Pon), (3, c1Pass)],
          [(2, c1Ron), (3, c1Pass), (1, c1Pon)],
          [(3, c1Pass), (1, c1Pon), (2, c1Ron)],
          [(3, c1Pass), (2, c1Ron), (1, c1Pon)]],
        resolveResponsePriorities (dictLookup l) 0 4 = some (c1Ron, 2)) := by
  refine ⟨?_, ?_, by decide⟩
  · -- the (None, None) characterisation
    cases hron : scanDeclarations lookup (fun a => a.type == ActionType.RON)
        (responseScanSeats d 4) with
    | some r =>
        have hres : resolveResponsePriorities lookup d 4 = some r := by
          unfold resolveResponsePriorities
          dsimp only
          simp only [Nat.cast_ofNat]
          rw [hron]
        obtain ⟨hl, hp, pre, post, hsplit, hpre⟩ :=
          scanDeclarations_eq_some lookup _ _ r.1 r.2 (by rw [hron])
        refine iff_of_false (by simp [hres]) ?_
        rintro ⟨hle, _⟩
        have hmem : r.2 ∈ responseScanSeats d 4 := by
          rw [hsplit]
          exact List.mem_append_right pre (List.mem_cons_self r.2 post)
        have hcls := hle r.2 hmem
        have htype : r.1.type = ActionType.RON := by simpa using hp
        rw [declClass_of_lookup lookup r.2 r.1 hl, htype] at hcls
        simp [actionPriorityClass] at hcls
    | none =>
        cases hpk : scanDeclarations lookup
            (fun a => a.type == ActionType.PON || a.type == ActionType.KAN)
            (responseScanSeats d 4) with
        | some r =>
            have hres : resolveResponsePriorities lookup d 4 = some r := by
              unfold resolveResponsePriorities
              dsimp only
              simp only [Nat.cast_ofNat]
              rw [hron, hpk]
            obtain ⟨hl, hp, pre, post, hsplit, hpre⟩ :=
              scanDeclarations_eq_some lookup _ _ r.1 r.2 (by rw [hpk])
            refine iff_of_false (by simp [hres]) ?_
            rintro ⟨hle, _⟩
            have hmem : r.2 ∈ responseScanSeats d 4 := by
              rw [hsplit]
              exact List.mem_append_right pre (List.mem_cons_self r.2 post)
            have hcls := hle r.2 hmem
            have h2 : actionPriorityClass r.1.type = 2 := ponkan_pred_class r.1 hp
            rw [declClass_of_lookup lookup r.2 r.1 hl, h2] at hcls
            omega
        | none =>
            have hall : ∀ s ∈ responseScanSeats d 4, declClass lookup s ≤ 1 := by
              intro s hs
              rw [declClass_le_one_iff]
              intro a ha
              exact ⟨(scanDeclarations_eq_none_iff lookup _ _).mp hron s hs a ha,
                (scanDeclarations_eq_none_iff lookup _ _).mp hpk s hs a ha⟩
            cases hchi : lookup (((d + 1).emod 4).toNat) with
            | none =>
                have hres : resolveResponsePriorities lookup d 4 = none := by
                  unfold resolveResponsePriorities
                  dsimp only
                  simp only [Nat.cast_ofNat]
                  rw [hron, hpk]
                  dsimp only
                  rw [hchi]
                refine iff_of_true hres ⟨hall, ?_⟩
                intro a ha
                cases ha
            | some a0 =>
                by_cases hc : a0.type = ActionType.CHI
                · have hres : resolveResponsePriorities lookup d 4
                      = some (a0, ((d + 1).emod 4).toNat) := by
                    unfold resolveResponsePriorities
                    dsimp only
                    simp only [Nat.cast_ofNat]
                    rw [hron, hpk]
                    dsimp only
                    rw [hchi]
                    simp [hc]
                  refine iff_of_false (by simp [hres]) ?_
                  rintro ⟨_, hno⟩
                  exact hno a0 rfl hc
                · have hres : resolveResponsePriorities lookup d 4 = none := by
                    unfold resolveResponsePriorities
                    dsimp only
                    simp only [Nat.cast_ofNat]
                    rw [hron, hpk]
                    dsimp only
                    rw [hchi]
                    simp [hc]
                  refine iff_of_true hres ⟨hall, ?_⟩
                  intro a ha
                  have : a0 = a := by injection ha
                  subst this
                  exact hc
  · -- the winning-declaration characterisation
    intro a p heq
    cases hron : scanDeclarations lookup (fun a => a.type == ActionType.RON)
        (responseScanSeats d 4) with
    | some r =>
        have hres : resolveResponsePriorities lookup d 4 = some r := by
          unfold resolveResponsePriorities
          dsimp only
          simp only [Nat.cast_ofNat]
          rw [hron]
        rw [hres] at heq
        have hap : r = (a, p) := by injection heq
        subst hap
        obtain ⟨hl, hp, pre, post, hsplit, hpre⟩ :=
          scanDeclarations_eq_some lookup _ _ a p (by rw [hron])
        have htype : a.type = ActionType.RON := by simpa using hp
        refine ⟨hl, ?_, ?_, ?_, ?_⟩
        · rw [htype]
          simp [actionPriorityClass]
        · intro s hs
          rw [htype]
          exact declClass_le_three lookup s
        · intro _
          refine ⟨pre, post, hsplit, ?_⟩
          intro s hs
          have hle2 : declClass lookup s ≤ 2 :=
            (declClass_le_two_iff lookup s).mpr (fun b hb => hpre s hs b hb)
          rw [htype]
          show declClass lookup s < 3
          omega
        · intro hcontra
          rw [htype] at hcontra
          simp [actionPriorityClass] at hcontra
    | none =>
        cases hpk : scanDeclarations lookup
            (fun a => a.type == ActionType.PON || a.type == ActionType.KAN)
            (responseScanSeats d 4) with
        | some r =>
            have hres : resolveResponsePriorities lookup d 4 = some r := by
              unfold resolveResponsePriorities
              dsimp only
              simp only [Nat.cast_ofNat]
              rw [hron, hpk]
            rw [hres] at heq
            have hap : r = (a, p) := by injection heq
            subst hap
            obtain ⟨hl, hp, pre, post, hsplit, hpre⟩ :=
              scanDeclarations_eq_some lookup _ _ a p (by rw [hpk])
            have h2 : actionPriorityClass a.type = 2 := ponkan_pred_class a hp
            refine ⟨hl, by omega, ?_, ?_, by omega⟩
            · intro s hs
              have hle2 : declClass lookup s ≤ 2 :=
                (declClass_le_two_iff lookup s).mpr
                  (fun b hb => (scanDeclarations_eq_none_iff lookup _ _).mp hron s hs b hb)
              omega
            · intro _
              refine ⟨pre, post, hsplit, ?_⟩
              intro s hs
              have hle1 : declClass lookup s ≤ 1 := by
                rw [declClass_le_one_iff]
                intro b hb
                exact ⟨(scanDeclarations_eq_none_iff lookup _ _).mp hron
                    s (by rw [hsplit]; exact List.mem_append_left _ hs) b hb,
                  hpre s hs b hb⟩
              omega
        | none =>
            have hall : ∀ s ∈ responseScanSeats d 4, declClass lookup s ≤ 1 := by
              intro s hs
              rw [declClass_le_one_iff]
              intro b hb
              exact ⟨(scanDeclarations_eq_none_iff lookup _ _).mp hron s hs b hb,
                (scanDeclarations_eq_none_iff lookup _ _).mp hpk s hs b hb⟩
            cases hchi : lookup (((d + 1).emod 4).toNat) with
            | none =>
                have hres : resolveResponsePriorities lookup d 4 = none := by
                  unfold resolveResponsePriorities
                  dsimp only
                  simp only [Nat.cast_ofNat]
                  rw [hron, hpk]
                  dsimp only
                  rw [hchi]
                rw [hres] at heq
                cases heq
            | some a0 =>
                by_cases hc : a0.type = ActionType.CHI
                · have hres : resolveResponsePriorities lookup d 4
                      = some (a0, ((d + 1).emod 4).toNat) := by
                    unfold resolveResponsePriorities
                    dsimp only
                    simp only [Nat.cast_ofNat]
                    rw [hron, hpk]
                    dsimp only
                    rw [hchi]
                    simp [hc]
                  rw [hres] at heq
                  have hpair : (a0, ((d + 1).emod 4).toNat) = (a, p) := by injection heq
                  have ha : a0 = a := congrArg Prod.fst hpair
                  have hpn : ((d + 1).emod 4).toNat = p := congrArg Prod.snd hpair
                  subst ha
                  subst hpn
                  have h1 : actionPriorityClass a0.type = 1 := by
                    rw [hc]
                    rfl
                  refine ⟨hchi, by omega, ?_, by omega, fun _ => ⟨rfl, hc⟩⟩
                  intro s hs
                  have := hall s hs
                  omega
                · have hres : resolveResponsePriorities lookup d 4 = none := by
                    unfold resolveResponsePriorities
                    dsimp only
                    simp only [Nat.cast_ofNat]
                    rw [hron, hpk]
                    dsimp only
                    rw [hchi]
                    simp [hc]
                  rw [hres] at heq
                  cases heq

/-- C7 (amended): honba and riichi-stick contributions to the payout.  With
honba `h`: on a tsumo each of the three payers pays an extra `100 h` and the
winner gains `300 h`; on a ron the discarder pays an extra `100 h` (not the
claimed `300 h`) and the winner gains `100 h`, other seats unchanged; the
winner additionally receives the full riichi pool, `1000` per stick, which
changes no other seat's payment. -/
theorem honba_and_riichi_stick_payout (points : Int) (h sticks : Nat)
    (w dl lo : Fin 4) :
    (∀ f0 fh, Scoring.getFinalScoreAndPayout true points 0 sticks w dl (some lo) = some f0 →
        Scoring.getFinalScoreAndPayout true points h sticks w dl (some lo) = some fh →
        (∀ i, i ≠ w → fh i = f0 i - 100 * (h : ℚ)) ∧ fh w = f0 w + 300 * (h : ℚ))
    ∧ (∀ f0 fh, Scoring.getFinalScoreAndPayout false points 0 sticks w dl (some lo) = some f0 →
        Scoring.getFinalScoreAndPayout false points h sticks w dl (some lo) = some fh →
        fh lo - f0 lo = (if lo = w then 100 else -100) * (h : ℚ)
          ∧ fh w = f0 w + 100 * (h : ℚ)
          ∧ ∀ i, i ≠ w → i ≠ lo → fh i = f0 i)
    ∧ (∀ b f0 fs, Scoring.getFinalScoreAndPayout b points h 0 w dl (some lo) = some f0 →
        Scoring.getFinalScoreAndPayout b points h sticks w dl (some lo) = some fs →
        fs w = f0 w + 1000 * (sticks : ℚ) ∧ ∀ i, i ≠ w → fs i = f0 i) := by
  refine ⟨?_, ?_, ?_⟩
  · intro f0 fh h0 hh
    unfold Scoring.getFinalScoreAndPayout at h0 hh
    simp only [eq_self_iff_true, if_true, Bool.false_eq_true, if_false] at h0 hh
    rw [Option.some_inj] at h0 hh
    subst h0
    subst hh
    constructor
    · intro i hi
      by_cases hwd : w = dl
      · simp only [if_pos hwd, if_neg hi]
        by_cases hiw : i ≠ w
        · simp only [if_pos hiw]
          push_cast
          ring
        · exact absurd hi (by simpa using hiw)
      · simp only [if_neg hwd, if_neg hi]
        by_cases hid : i = dl
        · simp only [if_pos hid, if_neg hi]
          push_cast
          ring
        · simp only [if_neg hid, if_neg hi]
          push_cast
          ring
    · simp only [if_pos rfl]
      push_cast
      ring
  · intro f0 fh h0 hh
    unfold Scoring.getFinalScoreAndPayout at h0 hh
    simp only [eq_self_iff_true, if_true, Bool.false_eq_true, if_false] at h0 hh
    rw [Option.some_inj] at h0 hh
    subst h0
    subst hh
    refine ⟨?_, ?_, ?_⟩
    · by_cases hlw : lo = w
      · simp only [if_pos hlw]
        push_cast
        ring
      · simp only [if_neg hlw, if_pos rfl]
        push_cast
        ring
    · simp only [if_pos rfl]
      push_cast
      ring
    · intro i hiw hil
      simp only [if_neg hiw, if_neg hil]
  · intro b f0 fs h0 hs
    unfold Scoring.getFinalScoreAndPayout at h0 hs
    cases b with
    | true =>
        simp only [eq_self_iff_true, if_true, Bool.false_eq_true, if_false] at h0 hs
        rw [Option.some_inj] at h0 hs
        subst h0
        subst hs
        constructor
        · simp only [if_pos rfl]
          push_cast
          ring
        · intro i hiw
          simp only [if_neg hiw]
    | false =>
        simp only [eq_self_iff_true, if_true, Bool.false_eq_true, if_false] at h0 hs
        rw [Option.some_inj] at h0 hs
        subst h0
        subst hs
        constructor
        · simp only [if_pos rfl]
          push_cast
          ring
        · intro i hiw
          simp only [if_neg hiw]

/-- C7 counterexample: a ron with one honba charges the discarder 100 extra
points, not 300: a 1000-point ron at honba 1 with no sticks, winner seat 0,
discarder seat 1, debits the discarder 1100 rather than 1300. -/
theorem honba_payout_ron_counterexample :
    (Scoring.getFinalScoreAndPayout false 1000 1 0 (0 : Fin 4) (0 : Fin 4)
        (some (1 : Fin 4))).map (fun f => f 1) = some (-1100 : ℚ)
    ∧ (-1100 : ℚ) ≠ -(1000 : ℚ) - 300 * 1 := by
  constructor
  · unfold Scoring.getFinalScoreAndPayout
    norm_num
  · intro hcontra
    norm_num at hcontra

/-- C4 (code bug): after the deal the four hands, melds, discards and walls
hold 136 tiles; seat 0 discards 4m and seat 1 calls Pon on it, and the accepted
call leaves the state with 137 tiles: `_apply_winning_response` copies the
claimed discard into the meld without removing it from the discarder's pile. -/
theorem tile_conservation_violation :
    totalTileCount dealtState = 136
    ∧ ((GameState.applyAction dealtState c4DiscardAction 0).bind
        (fun r => GameState.applyAction r.1 c4PonAction 1)).map
          (fun r => (totalTileCount r.1, r.2)) = some (137, true) := by
  constructor
  · decide
  · decide

end Mahjong

namespace Mahjong

lemma discardAftermath_flag (s : GState) (p : Nat) (player : PlayerState)
    (tile : Tile) (b : Bool) (r : GState × Bool)
    (h : GameState.discardAftermath s p player tile b = some r) : r.2 = true := by
  unfold GameState.discardAftermath at h
  simp only [bind, Option.bind_eq_some] at h
  obtain ⟨queue, hq, h⟩ := h
  cases queue with
  | cons q0 rest =>
      simp only [Option.pure_def, Option.some_inj] at h
      rw [← h]
  | nil =>
      simp only [Option.pure_def, Option.bind_eq_bind, Option.bind_eq_some,
        Option.some_inj] at h
      obtain ⟨s2, _, h⟩ := h
      rw [← h]

lemma validateRiichi_none_false (s : GState) (p : Nat) :
    GameState.validateRiichi s p none = false := by
  unfold GameState.validateRiichi
  cases s.players.get? p <;> rfl

lemma removeTilesFromHand_single (hand : List Tile) (t : Tile) (h : t ∈ hand) :
    ∃ h2, GameState.removeTilesFromHand hand [t] = (true, h2) := by
  unfold GameState.removeTilesFromHand
  have hcount : 1 ≤ hand.count t := List.one_le_count_iff.mpr h
  have hany : (([t] : List Tile).any
      (fun u => decide (hand.count u < ([t] : List Tile).count u))) = false := by
    simp only [List.any_eq_false]
    intro x hx
    simp only [List.mem_singleton] at hx
    subst hx
    simp only [decide_eq_true_eq, not_lt]
    simpa using hcount
  rw [if_neg (by simp), if_neg (by simp only [hany]; exact Bool.false_ne_true)]
  exact ⟨_, rfl⟩

lemma performDiscardLogic_isSome (player : PlayerState) (t : Tile)
    (hmem : t ∈ player.hand ++ player.drawnTile.toList) :
    ∃ q, GameState.performDiscardLogic player t = some q := by
  unfold GameState.performDiscardLogic
  dsimp only
  by_cases hdrawn : player.drawnTile = some t
  · rw [if_neg (not_not_intro (Or.inl hdrawn)), if_pos hdrawn]
    exact ⟨_, rfl⟩
  · have hhand : t ∈ player.hand := by
      rcases List.mem_append.mp hmem with h | h
      · exact h
      · exfalso
        apply hdrawn
        cases hd : player.drawnTile with
        | none => rw [hd] at h; cases h
        | some d =>
            rw [hd] at h
            simp only [Option.toList_some, List.mem_singleton] at h
            exact congrArg some h.symm
    have hcontains : player.hand.contains t = true := by simpa using hhand
    rw [if_neg (not_not_intro (Or.inr hcontains)), if_neg hdrawn]
    cases hd : player.drawnTile with
    | some d =>
        dsimp only
        obtain ⟨h2, hr⟩ := removeTilesFromHand_single (player.hand ++ [d]) t
          (List.mem_append_left _ hhand)
        rw [hr]
        exact ⟨_, rfl⟩
    | none =>
        dsimp only
        obtain ⟨h2, hr⟩ := removeTilesFromHand_single player.hand t hhand
        rw [hr]
        exact ⟨_, rfl⟩

lemma validateRiichi_contains (s : GState) (p : Nat) (t : Tile) (player : PlayerState)
    (hget : s.players.get? p = some player)
    (hv : GameState.validateRiichi s p (some t) = true) :
    t ∈ player.hand ++ player.drawnTile.toList := by
  unfold GameState.validateRiichi at hv
  rw [hget] at hv
  simp only [Bool.and_eq_true] at hv
  simpa using hv.1.2

/-- C5: a rejected action leaves every observable component of the state
unchanged: player scores, hands, melds, discards and riichi flags, the
riichi-stick pool, the wall, the phase and the acting player. -/
theorem apply_action_rejection_no_mutation (s : GState) (a : Action) (p : Nat)
    (s' : GState) (h : GameState.applyAction s a p = some (s', false)) :
    coreView s' = coreView s := by
  unfold GameState.applyAction at h
  dsimp only at h
  by_cases hcur : (p : Int) ≠ s.currentPlayerIndex
  · rw [if_pos hcur, Option.some_inj] at h
    injection h with h1 h2
    rw [← h1]
    simp [coreView]
  · rw [if_neg hcur] at h
    cases hph : s.gamePhase with
    | PLAYER_DISCARD =>
        rw [hph] at h
        dsimp only at h
        cases hat : a.type with
        | DISCARD =>
            rw [hat] at h
            dsimp only at h
            cases hget : s.players.get? p with
            | none =>
                rw [hget] at h
                exact Option.noConfusion h
            | some player =>
                rw [hget] at h
                dsimp only at h
                cases htile : a.tile with
                | none =>
                    rw [htile] at h
                    dsimp only at h
                    rw [Option.some_inj] at h
                    injection h with h1 h2
                    rw [← h1]
                    simp [coreView, hph]
                | some tile =>
                    rw [htile] at h
                    dsimp only at h
                    cases hpd : GameState.performDiscardLogic player tile with
                    | none =>
                        rw [hpd] at h
                        dsimp only at h
                        rw [Option.some_inj] at h
                        injection h with h1 h2
                        rw [← h1]
                        simp [coreView, hph]
                    | some player2 =>
                        rw [hpd] at h
                        dsimp only at h
                        have hflag := discardAftermath_flag _ _ _ _ _ _ h
                        exact Bool.noConfusion hflag
        | TSUMO =>
            rw [hat] at h
            dsimp only at h
            cases hget : s.players.get? p with
            | none =>
                rw [hget] at h
                exact Option.noConfusion h
            | some player =>
                rw [hget] at h
                dsimp only at h
                by_cases hw : RulesEngine.checkBasicWinShape
                    (player.hand ++ player.drawnTile.toList) player.melds = true
                · rw [if_neg (not_not_intro hw)] at h
                  exact Option.noConfusion h
                · rw [if_pos hw, Option.some_inj] at h
                  injection h with h1 h2
                  rw [← h1]
                  simp [coreView, hph]
        | KAN =>
            rw [hat] at h
            dsimp only at h
            cases hk : a.kanType with
            | none =>
                rw [hk] at h
                dsimp only at h
                rw [Option.some_inj] at h
                injection h with h1 h2
                rw [← h1]
                simp [coreView, hph]
            | some kt =>
                rw [hk] at h
                cases kt with
                | OPEN =>
                    try dsimp only at h
                    rw [Option.some_inj] at h
                    injection h with h1 h2
                    rw [← h1]
                    simp [coreView, hph]
                | CLOSED => exact Option.noConfusion h
                | ADDED => exact Option.noConfusion h
        | RIICHI =>
            rw [hat] at h
            dsimp only at h
            cases hget : s.players.get? p with
            | none =>
                rw [hget] at h
                exact Option.noConfusion h
            | some player =>
                rw [hget] at h
                dsimp only at h
                by_cases hv : GameState.validateRiichi
                    { s with gamePhase := GamePhase.PLAYER_DISCARD, lastActionType := some ActionType.RIICHI, lastActionPlayer := some p }
                    p a.tile = true
                · rw [if_neg (not_not_intro hv)] at h
                  cases htile : a.tile with
                  | none =>
                      rw [htile] at hv
                      rw [validateRiichi_none_false] at hv
                      exact Bool.noConfusion hv
                  | some t =>
                      rw [htile] at h hv
                      dsimp only at h
                      have hmem : t ∈ player.hand ++ player.drawnTile.toList :=
                        validateRiichi_contains _ p t player hget hv
                      obtain ⟨q, hq⟩ := performDiscardLogic_isSome
                        { player with riichiDeclared := true, score := player.score - 1000, ippatsuChance := true }
                        t hmem
                      rw [hq] at h
                      dsimp only at h
                      have hflag := discardAftermath_flag _ _ _ _ _ _ h
                      exact Bool.noConfusion hflag
                · rw [if_pos hv, Option.some_inj] at h
                  injection h with h1 h2
                  rw [← h1]
                  simp [coreView, hph]
        | SPECIAL_DRAW =>
            rw [hat] at h
            dsimp only at h
            by_cases hsd : GameState.validateSpecialDraw
                { s with gamePhase := GamePhase.PLAYER_DISCARD, lastActionType := some ActionType.SPECIAL_DRAW, lastActionPlayer := some p } p = true
            · rw [if_pos hsd] at h
              exact Option.noConfusion h
            · rw [if_neg hsd, Option.some_inj] at h
              injection h with h1 h2
              rw [← h1]
              simp [coreView, hph]
        | CHI =>
            rw [hat] at h
            dsimp only at h
            rw [Option.some_inj] at h
            injection h with h1 h2
            rw [← h1]
            simp [coreView, hph]
        | PON =>
            rw [hat] at h
            dsimp only at h
            rw [Option.some_inj] at h
            injection h with h1 h2
            rw [← h1]
            simp [coreView, hph]
        | RON =>
            rw [hat] at h
            dsimp only at h
            rw [Option.some_inj] at h
            injection h with h1 h2
            rw [← h1]
            simp [coreView, hph]
        | PASS =>
            rw [hat] at h
            dsimp only at h
            rw [Option.some_inj] at h
            injection h with h1 h2
            rw [← h1]
            simp [coreView, hph]
    | WAITING_FOR_RESPONSE =>
        rw [hph] at h
        dsimp only at h
        split at h
        · exact Option.noConfusion h
        · next lst hgen =>
            by_cases hc : lst.contains a = true
            · rw [if_neg (not_not_intro hc)] at h
              try dsimp only at h
              split at h
              · split at h
                · simp [Option.map_eq_some', Prod.ext_iff] at h
                · simp [Option.map_eq_some', Prod.ext_iff] at h
              · split at h
                · simp [Prod.ext_iff] at h
                · simp [Prod.ext_iff] at h
            · rw [if_pos hc, Option.some_inj] at h
              injection h with h1 h2
              rw [← h1]
              simp [coreView, hph]
    | GAME_START =>
        rw [hph] at h
        dsimp only at h
        rw [Option.some_inj] at h
        injection h with h1 h2
        rw [← h1]
        simp [coreView, hph]
    | HAND_START =>
        rw [hph] at h
        dsimp only at h
        rw [Option.some_inj] at h
        injection h with h1 h2
        rw [← h1]
        simp [coreView, hph]
    | DEALING =>
        rw [hph] at h
        dsimp only at h
        rw [Option.some_inj] at h
        injection h with h1 h2
        rw [← h1]
        simp [coreView, hph]
    | PLAYER_DRAW =>
        rw [hph] at h
        dsimp only at h
        rw [Option.some_inj] at h
        injection h with h1 h2
        rw [← h1]
        simp [coreView, hph]
    | ACTION_PROCESSING =>
        rw [hph] at h
        dsimp only at h
        rw [Option.some_inj] at h
        injection h with h1 h2
        rw [← h1]
        simp [coreView, hph]
    | HAND_OVER_SCORES =>
        rw [hph] at h
        dsimp only at h
        rw [Option.some_inj] at h
        injection h with h1 h2
        rw [← h1]
        simp [coreView, hph]
    | GAME_OVER =>
        rw [hph] at h
        dsimp only at h
        rw [Option.some_inj] at h
        injection h with h1 h2
        rw [← h1]
        simp [coreView, hph]

def c5Rejected : GState :=
  { dealtState with lastActionType := some ActionType.PASS, lastActionPlayer := some 0 }

theorem apply_action_rejection_witness :
    GameState.applyAction dealtState { type := ActionType.PASS } 0
        = some (c5Rejected, false)
    ∧ coreView c5Rejected = coreView dealtState :=
  ⟨rfl, apply_action_rejection_no_mutation dealtState { type := ActionType.PASS } 0
      c5Rejected rfl⟩

end Mahjong
